import Mathlib

/-
Verification development for the document-upload/summarization scripts
`doc_sum.py` and `document_analyzer.py`.

The Python sources are shallowly embedded as pure Lean functions.  Network
I/O (`requests.post` / `requests.get` / `requests.put`) and filesystem
queries are modelled by explicit environment records of oracles; parsed
JSON values are modelled by the `Json` inductive below, together with
Python truthiness.  A Python function that can terminate by an uncaught
exception is modelled with `Except Unit`.
-/

set_option maxHeartbeats 1000000
set_option autoImplicit false

/-- JSON values as returned by `response.json()`.  Numbers are modelled as
integers (no float arithmetic occurs in the scripts).  Objects are ordered
key/value lists; `lookupKv` returns the first binding, matching Python
dictionaries (which cannot hold duplicate keys). -/
inductive Json where
  | null : Json
  | bool : Bool → Json
  | num : Int → Json
  | str : String → Json
  | arr : List Json → Json
  | obj : List (String × Json) → Json
deriving Repr

/-- Python truthiness of a JSON value (`if x:`). -/
def Json.truthy : Json → Bool
  | .null => false
  | .bool b => b
  | .num n => n != 0
  | .str s => s != ""
  | .arr xs => !xs.isEmpty
  | .obj kvs => !kvs.isEmpty

/-- `d.get(k)` on a Python dict represented as a key/value list: first
binding for `k`, or `none` (Python `None`) when absent. -/
def lookupKv (kvs : List (String × Json)) (k : String) : Option Json :=
  match kvs with
  | [] => none
  | (k', v) :: rest => if k' = k then some v else lookupKv rest k

/-- Truthiness of a `dict.get` result (`None` is falsy). -/
def truthyOpt : Option Json → Bool
  | none => false
  | some j => j.truthy

/-- Python `a or b` on JSON values. -/
def pyOr (a b : Json) : Json := if a.truthy then a else b

/-- `d.get(k)` where a missing key yields Python `None`. -/
def getJ (kvs : List (String × Json)) (k : String) : Json :=
  (lookupKv kvs k).getD .null

mutual
/-- `json.dumps`, modelled closely enough for the claims: every JSON value
serializes to a non-empty string and strings serialize quoted. -/
def Json.dumps : Json → String
  | .null => "null"
  | .bool true => "true"
  | .bool false => "false"
  | .num n => toString n
  | .str s => "\"" ++ s ++ "\""
  | .arr xs => "[" ++ Json.dumpsArr xs ++ "]"
  | .obj kvs => "\x7b" ++ Json.dumpsObj kvs ++ "\x7d"

def Json.dumpsArr : List Json → String
  | [] => ""
  | [j] => Json.dumps j
  | j :: rest => Json.dumps j ++ ", " ++ Json.dumpsArr rest

def Json.dumpsObj : List (String × Json) → String
  | [] => ""
  | [(k, v)] => "\"" ++ k ++ "\": " ++ Json.dumps v
  | (k, v) :: rest => "\"" ++ k ++ "\": " ++ Json.dumps v ++ ", " ++ Json.dumpsObj rest
end

/-- Network operations a run can perform; used to state that a run issued
no upload/poll/chat requests. `.poll` stands for one invocation of a
status-poll loop, `.uploadPost` and `.uploadPut` for the two HTTP phases
of an upload, `.chat` for a chat/summarization request. -/
inductive NetOp where
  | uploadPost : NetOp
  | uploadPut : NetOp
  | poll : NetOp
  | chat : NetOp
deriving Repr, DecidableEq

/-- `if not AMPLIFY_API_KEY:` — the key is missing when `os.getenv`
returned `None` or the empty string. -/
def keyMissing : Option String → Bool
  | none => true
  | some s => s == ""

/- ----------------------------------------------------------------------
POSIX path helpers (`os.path.join`, `os.path.basename`, `os.path.dirname`).
---------------------------------------------------------------------- -/

/-- Split a character list at its LAST `'/'`: `some (before, after)`, or
`none` when no `'/'` occurs. -/
def lastSlashSplit : List Char → Option (List Char × List Char)
  | [] => none
  | c :: cs =>
    match lastSlashSplit cs with
    | some (b, a) => some (c :: b, a)
    | none => if c = '/' then some ([], cs) else none

/-- `os.path.basename` for POSIX-style paths. -/
def pyBasename (s : String) : String :=
  match lastSlashSplit s.data with
  | some (_, a) => ⟨a⟩
  | none => s

/-- `os.path.dirname` for POSIX-style paths (the sources only apply it to
`tempfile.mkdtemp(...)/<file name>` style paths, never to a filesystem
root, so the root special case of CPython is irrelevant here). -/
def pyDirname (s : String) : String :=
  match lastSlashSplit s.data with
  | some (b, _) => ⟨b⟩
  | none => ""

/-- Whether a path's last character is `'/'`. -/
def endsWithSlash (s : String) : Bool :=
  match s.data.getLast? with
  | some c => c == '/'
  | none => false

/-- `os.path.join` for POSIX-style paths (the scripts never join an
absolute second component). -/
def ospJoin (a b : String) : String :=
  if a = "" then b
  else if endsWithSlash a then a ++ b
  else a ++ "/" ++ b

/- ----------------------------------------------------------------------
doc_sum.py
---------------------------------------------------------------------- -/

namespace DocSum

/-- Outcome of one `GET /files/{id}/status` attempt in
`doc_sum.wait_for_file_processing`:
`err` is any exception during the request/JSON handling (the loop body is
wrapped in `except Exception`), `ok st` is a parsed response whose
`status` field is `st` (`none` when the key is absent). -/
inductive StatusQuery where
  | err : StatusQuery
  | ok : Option Json → StatusQuery
deriving Repr

/-- Python `state == <literal>` where `state = status_data.get("status")`:
true exactly when the attempt parsed a response whose `status` field is
the given string. -/
def StatusQuery.isStatus : StatusQuery → String → Bool
  | .ok (some (.str s')), s => s' == s
  | _, _ => false

/-- The polling loop of `doc_sum.wait_for_file_processing`, lines 85-102:
one status query per attempt; `"ready"` returns `True`, `"failed"` returns
`False`, anything else (including exceptions) sleeps and retries; the
attempt counter runs from 1.  The `time.sleep` calls are not modelled. -/
def waitLoop (q : Nat → StatusQuery) : Nat → Nat → Bool
  | 0, _ => false
  | fuel + 1, att =>
    if (q att).isStatus "ready" then true
    else if (q att).isStatus "failed" then false
    else waitLoop q fuel (att + 1)

/-- `doc_sum.wait_for_file_processing(file_id, max_attempts, wait_seconds)`
(lines 81-105), as a function of the status-query oracle. -/
def wait_for_file_processing (q : Nat → StatusQuery) (max_attempts : Nat) : Bool :=
  waitLoop q max_attempts 1

/-- Environment of one `doc_sum.upload_file_to_amplify` call:
`post` is the parsed JSON object of the metadata POST (`none` models a
`RequestException`, including a non-2xx status raised by
`raise_for_status`); `putOk` is the outcome of the pre-signed PUT.
The local file read is assumed to succeed (an `OSError` there would
propagate uncaught, outside the modelled behaviours). -/
structure UploadEnv where
  post : Option (List (String × Json))
  putOk : Bool

/-- `doc_sum.upload_file_to_amplify` (lines 52-75): POST the metadata; if
the response carries a truthy `uploadUrl`, PUT the file bytes there and
fail on a PUT error; return the metadata response object on success, and
`none` on any `RequestException`.  The second component lists the HTTP
operations attempted. -/
def upload_file_to_amplify (env : UploadEnv) :
    Option (List (String × Json)) × List NetOp :=
  match env.post with
  | none => (none, [.uploadPost])
  | some kvs =>
    if truthyOpt (lookupKv kvs "uploadUrl") then
      if env.putOk then (some kvs, [.uploadPost, .uploadPut])
      else (none, [.uploadPost, .uploadPut])
    else (some kvs, [.uploadPost])

/-- Environment of `doc_sum.summarize_document`: the upload outcome and
the status-query oracle of the subsequent poll. -/
structure Env where
  upload : UploadEnv
  statusQuery : Nat → StatusQuery

/-- Observable outcome of `doc_sum.summarize_document`: the `fileIds`
list of the summarization request when one was sent, and the network
operations performed. -/
structure Result where
  request : Option (List Json)
  netOps : List NetOp
deriving Repr

/-- `doc_sum.summarize_document` (lines 111-152): upload, bail out on a
falsy response or falsy `id`, poll with the default budget of 10
attempts, and send the summarization request `fileIds = [file_id]` only
when the poll returned `True`. -/
def summarize_document (env : Env) : Result :=
  match upload_file_to_amplify env.upload with
  | (none, ops) => ⟨none, ops⟩
  | (some kvs, ops) =>
    if ¬ (Json.obj kvs).truthy then ⟨none, ops⟩
    else
      match lookupKv kvs "id" with
      | none => ⟨none, ops⟩
      | some fid =>
        if ¬ fid.truthy then ⟨none, ops⟩
        else if wait_for_file_processing env.statusQuery 10 then
          ⟨some [fid], ops ++ [.poll, .chat]⟩
        else ⟨none, ops ++ [.poll]⟩

/-- The `doc_sum.py` process (module body plus `__main__`, lines 13-16 and
158-168): a missing key exits with code 1 before anything else; bad argv
or a missing input file exit with code 1; otherwise `summarize_document`
runs and the process ends normally (`none` exit code).  The second
component is the list of network operations performed. -/
def program (apiKey : Option String) (argvOk fileOk : Bool) (env : Env) :
    Option Nat × List NetOp :=
  if keyMissing apiKey then (some 1, [])
  else if ¬ argvOk then (some 1, [])
  else if ¬ fileOk then (some 1, [])
  else (none, (summarize_document env).netOps)

end DocSum

/- ----------------------------------------------------------------------
document_analyzer.py
---------------------------------------------------------------------- -/

namespace DocAnalyzer

/-- Python `value == <string literal>` where `value` came from `dict.get`
(`None` or a JSON value): true exactly for an equal string. -/
def optIsStr : Option Json → String → Bool
  | some (.str s'), s => s' == s
  | _, _ => false

/-- The `files_list = files_response.get("data", {}).get("items", [])`
extraction of `document_analyzer.wait_for_file_processing` (line 322),
followed by iterating over `files_list`.  `.error ()` models an uncaught
Python exception: an `AttributeError` when `data` is present but not a
dict, or iterating a non-list `items` value whose elements are not dicts
(a non-empty string yields 1-character strings, a non-empty dict yields
its keys — both lack `.get`; `None`/numbers/booleans are not iterable).
The empty string and the empty dict iterate to nothing. -/
def getItems : Json → Except Unit (List Json)
  | .obj kvs =>
    match lookupKv kvs "data" with
    | none => .ok []
    | some (.obj dk) =>
      match lookupKv dk "items" with
      | none => .ok []
      | some (.arr xs) => .ok xs
      | some (.str s) => if s = "" then .ok [] else .error ()
      | some (.obj ik) => if ik.isEmpty then .ok [] else .error ()
      | some _ => .error ()
    | some _ => .error ()
  | _ => .error ()

/-- The `for file_info in files_list:` search of
`document_analyzer.wait_for_file_processing` (lines 323-327): the first
item whose `name` field equals `file_name` wins and its `id` field is
returned (Python `None`, i.e. `none`, when the `id` key is absent); a
non-dict item raises (`.error`); no match yields `.ok none`. -/
def findFile (nm : String) : List Json → Except Unit (Option (Option Json))
  | [] => .ok none
  | .obj kvs :: rest =>
    if optIsStr (lookupKv kvs "name") nm then .ok (some (lookupKv kvs "id"))
    else findFile nm rest
  | _ :: _ => .error ()

/-- The polling loop of `document_analyzer.wait_for_file_processing`
(lines 315-330): each attempt calls `query_files()`; a `None` or falsy
response just sleeps and retries; otherwise the recent-files listing is
searched for `file_name` and the matching item's `id` is returned.  No
processing status is ever consulted.  `query att = none` covers both a
request failure and a missing API key; the `time.sleep` calls are not
modelled. -/
def waitLoop (query : Nat → Option Json) (nm : String) :
    Nat → Nat → Except Unit (Option Json)
  | 0, _ => .ok none
  | fuel + 1, att =>
    match query att with
    | none => waitLoop query nm fuel (att + 1)
    | some resp =>
      if ¬ resp.truthy then waitLoop query nm fuel (att + 1)
      else
        match getItems resp with
        | .error e => .error e
        | .ok items =>
          match findFile nm items with
          | .error e => .error e
          | .ok (some fid) => .ok fid
          | .ok none => waitLoop query nm fuel (att + 1)

/-- `document_analyzer.wait_for_file_processing(file_name, max_attempts,
wait_seconds)` (lines 311-332), as a function of the `query_files`
oracle; the source default budget is `max_attempts=2`. -/
def wait_for_file_processing (query : Nat → Option Json) (nm : String)
    (max_attempts : Nat) : Except Unit (Option Json) :=
  waitLoop query nm max_attempts 1

/-- Outcome classification of one polling attempt, used to characterize
the loop: `skip` (no/falsy response), `crash` (shape error), `notFound`,
or `found fid` (first item named `nm`; `fid` is its `id` field). -/
inductive Attempt where
  | skip : Attempt
  | crash : Attempt
  | notFound : Attempt
  | found : Option Json → Attempt

/-- The outcome of attempt `i` of the `document_analyzer` poller. -/
def attemptAt (query : Nat → Option Json) (nm : String) (i : Nat) : Attempt :=
  match query i with
  | none => .skip
  | some resp =>
    if ¬ resp.truthy then .skip
    else
      match getItems resp with
      | .error _ => .crash
      | .ok items =>
        match findFile nm items with
        | .error _ => .crash
        | .ok (some fid) => .found fid
        | .ok none => .notFound

/-- Whether a polling attempt lets the loop continue to the next attempt. -/
def Attempt.continues : Attempt → Prop
  | .skip => True
  | .notFound => True
  | _ => False

/-- Environment of one OneDrive hydration call
(`hydrate_file_with_robocopy`, lines 121-150): the name `mkdtemp` picked
and whether robocopy produced a non-empty copy (`os.path.exists` and
`os.path.getsize > 0`); a `subprocess` timeout/exception behaves like a
failed copy. -/
structure HydrateEnv where
  tmpdir : String
  robocopyOk : Bool

/-- Result of a hydration call: the hydrated path if any, the temporary
directories created, and those already removed by the helper itself. -/
structure HydrateResult where
  ret : Option String
  created : List String
  deleted : List String
deriving Repr

/-- `document_analyzer.hydrate_file_with_robocopy` (lines 121-150):
non-Windows returns `None` having touched nothing; otherwise a temporary
directory is created and, on a failed copy, removed again before
returning `None`; on success the copy `tmpdir/<basename>` is returned and
the directory is left for the caller. -/
def hydrate_file_with_robocopy (env : HydrateEnv) (path : String)
    (isWindows : Bool) : HydrateResult :=
  if ¬ isWindows then ⟨none, [], []⟩
  else if env.robocopyOk then
    ⟨some (ospJoin env.tmpdir (pyBasename path)), [env.tmpdir], []⟩
  else ⟨none, [env.tmpdir], [env.tmpdir]⟩

/-- Environment of one `document_analyzer.upload_file_to_amplify` call.
`post` is the parsed JSON object of the metadata POST (`none` for a
`RequestException`); `readOk` is the `open(file_to_open, "rb").read()`
outcome (a failure is caught by the generic `except Exception` handler);
`putOk` is the outcome of the pre-signed PUT. -/
structure UploadEnv where
  fileExists : Bool
  isWindows : Bool
  isPlaceholder : Bool
  hydrate : HydrateEnv
  post : Option (List (String × Json))
  readOk : Bool
  putOk : Bool

/-- Result of an upload call: the returned value, the HTTP operations
attempted, and the temporary directories created and deleted. -/
structure UploadResult where
  ret : Option Json
  netOps : List NetOp
  createdDirs : List String
  deletedDirs : List String
deriving Repr

/-- `document_analyzer.upload_file_to_amplify` (lines 153-259): missing
API key or missing file return `None` up front; on Windows a OneDrive
placeholder is first hydrated (failure is non-fatal); the metadata POST
must parse, report a truthy `success` and carry a truthy `uploadUrl`,
then the bytes are read and PUT; any exception yields `None`; the
`finally` block removes the hydrated copy's directory whenever one was
recorded (`rmtree` is assumed to succeed, its own failure being
swallowed). -/
def upload_file_to_amplify (hasKey : Bool) (env : UploadEnv)
    (file_path : String) : UploadResult :=
  if ¬ hasKey then ⟨none, [], [], []⟩
  else if ¬ env.fileExists then ⟨none, [], [], []⟩
  else
    let hyd : Option HydrateResult :=
      if env.isWindows ∧ env.isPlaceholder then
        some (hydrate_file_with_robocopy env.hydrate file_path env.isWindows)
      else none
    let temp_copy_dir : Option String :=
      match hyd with
      | some h => match h.ret with
        | some hp => some (pyDirname hp)
        | none => none
      | none => none
    let created := match hyd with | some h => h.created | none => []
    let preDeleted := match hyd with | some h => h.deleted | none => []
    let finDeleted := match temp_copy_dir with | some d => [d] | none => []
    let ro : Option Json × List NetOp :=
      match env.post with
      | none => (none, [.uploadPost])
      | some kvs =>
        if ¬ truthyOpt (lookupKv kvs "success") then (none, [.uploadPost])
        else if ¬ truthyOpt (lookupKv kvs "uploadUrl") then (none, [.uploadPost])
        else if ¬ env.readOk then (none, [.uploadPost])
        else if ¬ env.putOk then (none, [.uploadPost, .uploadPut])
        else (some (.obj kvs), [.uploadPost, .uploadPut])
    ⟨ro.1, ro.2, created, preDeleted ++ finDeleted⟩

end DocAnalyzer

namespace DocAnalyzer

/-- Python `x if isinstance(x, str) else json.dumps(x)`. -/
def strOrDumps : Json → String
  | .str s => s
  | j => Json.dumps j

/-- First `try:` block of `_extract_text_from_amplify_response`
(lines 373-388): probe `resp["data"]["choices"][0]` for
`message`/`response` dicts with `content`/`text`/`body`, then the
direct `text`/`content` fields.  `none` covers both a normal
fall-through and a swallowed exception (`except Exception: pass`),
which Python cannot distinguish here. -/
def probeChoices : Json → Option String
  | .obj kvs =>
    match (lookupKv kvs "data").getD (.obj []) with
    | .obj dk =>
      match lookupKv dk "choices" with
      | some (.arr (first :: _)) =>
        match first with
        | .obj fk =>
          let msg := pyOr (getJ fk "message") (pyOr (getJ fk "response") (.obj []))
          let direct : Option String :=
            let text := pyOr (getJ fk "text") (getJ fk "content")
            if text.truthy then some (strOrDumps text) else none
          match msg with
          | .obj mk =>
            let content := pyOr (getJ mk "content") (pyOr (getJ mk "text") (getJ mk "body"))
            if content.truthy then some (strOrDumps content) else direct
          | _ => direct
        | _ => none
      | _ => none
    | _ => none
  | _ => none

/-- Second `try:` block of `_extract_text_from_amplify_response`
(lines 391-401): a top-level string `data` is returned verbatim;
a dict `data` is probed for string `output`/`text`/`content` keys. -/
def probeData : Json → Option String
  | .obj kvs =>
    match lookupKv kvs "data" with
    | some (.str s) => some s
    | some (.obj dk) => firstStrKey dk ["output", "text", "content"]
    | _ => none
  | _ => none
where
  firstStrKey (dk : List (String × Json)) : List String → Option String
    | [] => none
    | k :: ks =>
      match lookupKv dk k with
      | some (.str s) => some s
      | _ => firstStrKey dk ks

/-- `document_analyzer._extract_text_from_amplify_response`
(lines 365-407): falsy responses yield `""`; otherwise the two probe
blocks run in order and the whole response is serialized as a last
resort.  The function is total — every Python exception inside it is
caught (our `Json.dumps` cannot fail, so the final `except` arm is
dead). -/
def _extract_text_from_amplify_response (resp : Json) : String :=
  if ¬ resp.truthy then ""
  else
    match probeChoices resp with
    | some s => s
    | none =>
      match probeData resp with
      | some s => s
      | none => Json.dumps resp

/-- `document_analyzer.get_supported_file_extensions` (lines 335-341). -/
def get_supported_file_extensions : List String :=
  [".py", ".js", ".ts", ".java", ".cpp", ".c", ".cs", ".php", ".rb", ".go",
   ".rs", ".swift", ".kt", ".scala", ".r", ".m", ".pl", ".sh", ".sql", ".html",
   ".css", ".xml", ".json", ".yaml", ".yml", ".md", ".txt", ".pdf", ".docx",
   ".pptx", ".xlsx"]

/-- Directory names pruned from the walk (line 354). -/
def excludedDirNames : List String :=
  [".git", "__pycache__", "node_modules", ".venv", "venv", "env"]

/-- Split a character list at its LAST `'.'`. -/
def lastDotSplit : List Char → Option (List Char × List Char)
  | [] => none
  | c :: cs =>
    match lastDotSplit cs with
    | some (b, a) => some (c :: b, a)
    | none => if c = '.' then some ([], cs) else none

/-- The extension part of `os.path.splitext(file)` for a bare file name
(no separators): everything from the last dot on, provided some
character before that dot is not itself a dot (so `.bashrc` has no
extension), else `""`. -/
def splitextExt (s : String) : String :=
  match lastDotSplit s.data with
  | none => ""
  | some (before, after) =>
    if before.any (fun c => c ≠ '.') then ⟨'.' :: after⟩ else ""

/-- A directory tree: named subdirectories and file names, both in
`os.listdir` order. -/
inductive Dir where
  | node : List (String × Dir) → List String → Dir

/-- The subdirectories of a tree node. -/
def Dir.subdirs : Dir → List (String × Dir)
  | .node ds _ => ds

/-- The files of a tree node. -/
def Dir.files : Dir → List String
  | .node _ fs => fs

mutual
/-- `os.walk(directory_path)` restricted to what `scan_directory_for_files`
uses, with the in-place pruning `dirs[:] = [d for d in dirs if d not in
[...]]` (line 354) applied before recursing: a top-down list of
`(root, files)` pairs.  The source filters `dirs` and then recurses; the
equivalent formulation here skips excluded names as it recurses. -/
def walkDir (path : String) (t : Dir) : List (String × List String) :=
  match t with
  | .node subdirs files => (path, files) :: walkDirs path subdirs

def walkDirs (path : String) : List (String × Dir) → List (String × List String)
  | [] => []
  | (d, sub) :: rest =>
    (if excludedDirNames.contains d then []
     else walkDir (ospJoin path d) sub) ++ walkDirs path rest
end

/-- Python `str.lower()` restricted to its ASCII behaviour, which is all
the extension comparison needs. -/
def pyLower (s : String) : String :=
  ⟨s.data.map Char.toLower⟩

/-- The per-directory body of the scan (lines 355-359): each listed file
becomes `os.path.join(root, file)` when its lowercased extension is in
the allow-list. -/
def scanFiles (root : String) (files : List String) : List String :=
  files.filterMap fun f =>
    if get_supported_file_extensions.contains (pyLower (splitextExt f)) then
      some (ospJoin root f)
    else none

/-- `document_analyzer.scan_directory_for_files` (lines 344-362).  The
filesystem under the root is `fs` (`none` when `directory_path` does not
exist or is not a directory); `os.path.exists("")` is always false in
Python, hence the empty-path case. -/
def scan_directory_for_files (directory_path : String) (fs : Option Dir) :
    List String :=
  if directory_path = "" then []
  else
    match fs with
    | none => []
    | some t => (walkDir directory_path t).flatMap fun rf => scanFiles rf.1 rf.2

end DocAnalyzer

namespace DocAnalyzer

/-- Environment of one `generate_organization_plan` run: whether
`AMPLIFY_API_KEY` is set (checked by every `get_headers()` call), the
scanned filesystem, and per-call oracles for the upload HTTP exchanges,
the `query_files` polling responses (indexed by searched file name and
attempt), and the chat response (indexed by the `dataSources` list). -/
structure Env where
  hasKey : Bool
  fs : Option Dir
  uploadEnv : String → UploadEnv
  query : String → Nat → Option Json
  chat : List Json → Option Json

/-- The `query_files` oracle seen by the poll for file name `nm`:
`get_headers()` returns `None` without any HTTP when the key is missing
(lines 52-56). -/
def pollOracle (env : Env) (nm : String) : Nat → Option Json :=
  fun att => if env.hasKey then env.query nm att else none

/-- Observable outcome of `generate_organization_plan`: the returned
dict's `success`/`error` fields, the file ids assembled for the chat
call, the `dataSources` lists of the chat requests actually sent, the
chat response used for the output file, the `(path, content)` writes
performed, and the network operations performed. -/
structure PlanResult where
  success : Bool
  error : Option String
  fileIds : List Json
  chatCalls : List (List Json)
  chatResponse : Option Json
  writes : List (String × String)
  netOps : List NetOp
  outputFilePath : Option String
deriving Repr

/-- The upload-then-poll loop of `generate_organization_plan`
(lines 430-441): each scanned file is uploaded; on a truthy upload
response the poller is invoked with the file's basename (budget 2) and a
truthy returned id is appended to `file_ids`.  A poller crash propagates
(`generate_organization_plan` has no handler). -/
def uploadAll (env : Env) : List String → Except Unit (List Json × List NetOp)
  | [] => .ok ([], [])
  | fp :: rest =>
    let u := upload_file_to_amplify env.hasKey (env.uploadEnv fp) fp
    if truthyOpt u.ret then
      match wait_for_file_processing (pollOracle env (pyBasename fp)) (pyBasename fp) 2 with
      | .error e => .error e
      | .ok fidOpt =>
        match uploadAll env rest with
        | .error e => .error e
        | .ok (ids, ops) =>
          match fidOpt with
          | some fid =>
            if fid.truthy then .ok (fid :: ids, u.netOps ++ [.poll] ++ ops)
            else .ok (ids, u.netOps ++ [.poll] ++ ops)
          | none => .ok (ids, u.netOps ++ [.poll] ++ ops)
    else
      match uploadAll env rest with
      | .error e => .error e
      | .ok (ids, ops) => .ok (ids, u.netOps ++ ops)

/-- `if max_files and len(supported_files) > max_files:` truncation
(lines 425-427); note `max_files=0` is falsy and truncates nothing. -/
def truncateFiles (max_files : Option Nat) (files : List String) : List String :=
  match max_files with
  | some m => if m ≠ 0 ∧ files.length > m then files.take m else files
  | none => files

/-- `document_analyzer.generate_organization_plan` (lines 409-491):
scan, truncate, upload-and-poll each file, send one chat request with
the assembled ids, and write `organization_result.get("data", "")` to
`<output_dir>/organization_commands.bat`.  A non-string `data` value
makes `f.write` raise a `TypeError` (`.error`); a missing or falsy key
earlier short-circuits with the recorded failure reason.  The chat call
is sent only when the key is present (`chat_with_amplify` returns `None`
from `get_headers()` otherwise, lines 272-274). -/
def generate_organization_plan (env : Env) (directory_path : String)
    (output_dir : String) (max_files : Option Nat) : Except Unit PlanResult :=
  let supported_files := scan_directory_for_files directory_path env.fs
  if supported_files.isEmpty then
    .ok ⟨false, some "No supported files found", [], [], none, [], [], none⟩
  else
    let files2 := truncateFiles max_files supported_files
    match uploadAll env files2 with
    | .error e => .error e
    | .ok (file_ids, ops) =>
      if file_ids.isEmpty then
        .ok ⟨false, some "No files uploaded", [], [], none, [], ops, none⟩
      else
        let chatCalls := if env.hasKey then [file_ids] else []
        let chatOps := if env.hasKey then [NetOp.chat] else []
        let cresp := if env.hasKey then env.chat file_ids else none
        if ¬ truthyOpt cresp then
          .ok ⟨false, some "LLM failed", file_ids, chatCalls, none, [],
               ops ++ chatOps, none⟩
        else
          match cresp with
          | some (.obj ckvs) =>
            let path := ospJoin output_dir "organization_commands.bat"
            match lookupKv ckvs "data" with
            | none =>
              .ok ⟨true, none, file_ids, chatCalls, cresp, [(path, "")],
                   ops ++ chatOps, some path⟩
            | some (.str s) =>
              .ok ⟨true, none, file_ids, chatCalls, cresp, [(path, s)],
                   ops ++ chatOps, some path⟩
            | some _ => .error ()
          | _ => .error ()

/-- The `__main__` block of `document_analyzer.py` (lines 494-516): exit
code 0 on success, 2 when the pipeline reports failure, 1 on an uncaught
exception. -/
def mainExitCode (env : Env) (directory_path output_dir : String) : Nat :=
  match generate_organization_plan env directory_path output_dir none with
  | .error _ => 1
  | .ok r => if r.success then 0 else 2

/-- Specification predicate (for stating theorems about the scanner): the
directory reached from `t` by following the subdirectory names `ds`,
never entering an excluded name. -/
inductive DirPath : Dir → List String → Dir → Prop where
  | here (t : Dir) : DirPath t [] t
  | step {subdirs files d sub ds u} :
      (d, sub) ∈ subdirs →
      d ∉ excludedDirNames →
      DirPath sub ds u →
      DirPath (.node subdirs files) (d :: ds) u

/-- `os.path.join` folded along a component list. -/
def joinAll (root : String) (ds : List String) (f : String) : String :=
  ospJoin (ds.foldl ospJoin root) f

end DocAnalyzer

/- ----------------------------------------------------------------------
Path fingerprints and tree well-formedness, used to state that the scan
lists each reachable allow-listed file exactly once.
---------------------------------------------------------------------- -/

/-- Split a character list on `'/'` into its segments (the standard
string split: `splitSlash "a/b" = ["a", "b"]`, `splitSlash "" = [""]`). -/
def splitSlash : List Char → List (List Char)
  | [] => [[]]
  | c :: cs =>
    if c = '/' then [] :: splitSlash cs
    else
      match splitSlash cs with
      | [] => [[c]]
      | seg :: rest => (c :: seg) :: rest

/-- A usable filesystem entry name: non-empty and free of the path
separator. -/
def goodNameB (s : String) : Bool := (s != "") && !s.data.contains '/'

namespace DocAnalyzer

mutual
/-- A directory tree with real-filesystem naming: within each directory,
entry names are non-empty, slash-free and pairwise distinct. -/
def Dir.wellNamed : Dir → Bool
  | .node subdirs files =>
    files.all goodNameB && decide files.Nodup &&
    subdirs.all (fun e => goodNameB e.1) &&
    decide (subdirs.map Prod.fst).Nodup &&
    Dir.wellNamedList subdirs

def Dir.wellNamedList : List (String × Dir) → Bool
  | [] => true
  | e :: rest => Dir.wellNamed e.2 && Dir.wellNamedList rest
end

end DocAnalyzer

/- ----------------------------------------------------------------------
Concrete example environments used by counterexamples and witnesses.
---------------------------------------------------------------------- -/

namespace Examples

/-- A recent-files listing item whose processing status is `"pending"`. -/
def pendingItem : List (String × Json) :=
  [("name", .str "doc.txt"), ("id", .str "f1"), ("status", .str "pending")]

/-- A `query_files` response listing only `pendingItem`. -/
def pendingResp : Json :=
  .obj [("data", .obj [("items", .arr [.obj pendingItem])])]

/-- A `query_files` oracle answering `pendingResp` on attempt 1 and
failing afterwards. -/
def pendingQuery : Nat → Option Json :=
  fun att => if att = 1 then some pendingResp else none

/-- An upload environment in which both phases succeed. -/
def okUploadEnv : DocAnalyzer.UploadEnv :=
  { fileExists := true, isWindows := false, isPlaceholder := false
    hydrate := ⟨"/tmp/onedrive_hydrate_ab", true⟩
    post := some [("success", .bool true), ("uploadUrl", .str "https://s3/u"),
                  ("id", .str "srv")]
    readOk := true, putOk := true }

/-- A pipeline environment: one scanned file `doc.txt`, a successful
upload, a listing that reports it with status `"pending"`, and a chat
response carrying a script. -/
def pendingEnv : DocAnalyzer.Env :=
  { hasKey := true
    fs := some (.node [] ["doc.txt"])
    uploadEnv := fun _ => okUploadEnv
    query := fun nm att => if nm = "doc.txt" ∧ att = 1 then some pendingResp else none
    chat := fun _ => some (.obj [("data", .str "mkdir plans")]) }

/-- A directory with `a.py`, `b.txt` and `.git/ignored.py`. -/
def exTree : DocAnalyzer.Dir :=
  .node [(".git", .node [] ["ignored.py"])] ["a.py", "b.txt"]

/-- A `doc_sum` environment whose upload succeeds and whose status query
reports `"ready"` immediately. -/
def dsReadyEnv : DocSum.Env :=
  { upload := ⟨some [("uploadUrl", .str "u"), ("id", .str "f1")], true⟩
    statusQuery := fun _ => .ok (some (.str "ready")) }

/-- A successful metadata response carrying no `uploadUrl` key. -/
def noUrlResp : List (String × Json) :=
  [("success", .bool true), ("id", .str "f1")]

/-- A `doc_sum` upload environment whose PUT would fail. -/
def putFailEnvDS : DocSum.UploadEnv :=
  ⟨some [("uploadUrl", .str "u"), ("id", .str "f1")], false⟩

/-- A `document_analyzer` upload environment whose PUT fails. -/
def putFailEnvDA : DocAnalyzer.UploadEnv :=
  { okUploadEnv with putOk := false }

/-- A Windows upload environment with a successfully hydrated OneDrive
placeholder whose PUT then fails. -/
def hydratePutFailEnv : DocAnalyzer.UploadEnv :=
  { fileExists := true, isWindows := true, isPlaceholder := true
    hydrate := ⟨"/tmp/onedrive_hydrate_cd", true⟩
    post := some [("success", .bool true), ("uploadUrl", .str "https://s3/u"),
                  ("id", .str "srv")]
    readOk := true, putOk := false }

/-- `pendingEnv` with the API key removed from the environment. -/
def noKeyEnv : DocAnalyzer.Env :=
  { pendingEnv with hasKey := false }

end Examples

/- ----------------------------------------------------------------------
Theorems.  Helper lemmas come first, then one theorem per claim.
---------------------------------------------------------------------- -/

/-- The `doc_sum` polling loop returns `True` iff some attempt in its
window reports status exactly `"ready"` and no earlier attempt reported
`"failed"`. -/
theorem DocSum.waitLoop_true_iff (q : Nat → DocSum.StatusQuery) :
    ∀ fuel att, DocSum.waitLoop q fuel att = true ↔
      ∃ i, att ≤ i ∧ i < att + fuel ∧ (q i).isStatus "ready" = true ∧
        ∀ j, att ≤ j → j < i → (q j).isStatus "failed" = false := by
  intro fuel
  induction fuel with
  | zero =>
    intro att
    simp only [DocSum.waitLoop]
    constructor
    · intro h; cases h
    · rintro ⟨i, h1, h2, -, -⟩; omega
  | succ n ih =>
    intro att
    rw [show DocSum.waitLoop q (n + 1) att =
        (if (q att).isStatus "ready" then true
         else if (q att).isStatus "failed" then false
         else DocSum.waitLoop q n (att + 1)) from rfl]
    by_cases hr : (q att).isStatus "ready" = true
    · simp only [hr, if_true]
      exact ⟨fun _ => ⟨att, le_refl _, by omega, hr,
        fun j hj1 hj2 => absurd hj2 (by omega)⟩, fun _ => trivial⟩
    · have hr' : (q att).isStatus "ready" = false := by
        cases h : (q att).isStatus "ready" with
        | true => exact absurd h hr
        | false => rfl
      by_cases hf : (q att).isStatus "failed" = true
      · simp only [hr', hf, Bool.false_eq_true, if_false, if_true]
        constructor
        · intro h; cases h
        · rintro ⟨i, h1, h2, hR, hF⟩
          rcases Nat.eq_or_lt_of_le h1 with rfl | hlt
          · rw [hr'] at hR; cases hR
          · have := hF att (le_refl _) hlt
            rw [hf] at this; cases this
      · have hf' : (q att).isStatus "failed" = false := by
          cases h : (q att).isStatus "failed" with
          | true => exact absurd h hf
          | false => rfl
        simp only [hr', hf', Bool.false_eq_true, if_false]
        rw [ih (att + 1)]
        constructor
        · rintro ⟨i, h1, h2, hR, hF⟩
          refine ⟨i, by omega, by omega, hR, fun j hj1 hj2 => ?_⟩
          rcases Nat.eq_or_lt_of_le hj1 with rfl | h
          · exact hf'
          · exact hF j (by omega) hj2
        · rintro ⟨i, h1, h2, hR, hF⟩
          have hia : i ≠ att := by
            rintro rfl; rw [hr'] at hR; cases hR
          exact ⟨i, by omega, by omega, hR, fun j hj1 hj2 => hF j (by omega) hj2⟩

/-- One step of the `document_analyzer` polling loop, expressed through
the per-attempt outcome classification. -/
theorem DocAnalyzer.waitLoop_succ (query : Nat → Option Json) (nm : String)
    (n att : Nat) :
    DocAnalyzer.waitLoop query nm (n + 1) att =
      match DocAnalyzer.attemptAt query nm att with
      | .skip => DocAnalyzer.waitLoop query nm n (att + 1)
      | .crash => .error ()
      | .notFound => DocAnalyzer.waitLoop query nm n (att + 1)
      | .found fid => .ok fid := by
  simp only [DocAnalyzer.waitLoop, DocAnalyzer.attemptAt]
  cases hq : query att with
  | none => rfl
  | some resp =>
    by_cases ht : resp.truthy = true
    · simp only [ht, not_true, if_neg, ite_false]
      cases hg : DocAnalyzer.getItems resp with
      | error e => rfl
      | ok items =>
        dsimp only
        cases hf : DocAnalyzer.findFile nm items with
        | error e => rfl
        | ok fidOpt => cases fidOpt <;> rfl
    · have ht' : resp.truthy = false := by
        cases h : resp.truthy with
        | true => exact absurd h ht
        | false => rfl
      simp only [ht', Bool.false_eq_true, not_false_iff, if_true]

/-- The `document_analyzer` polling loop returns a file id `v` iff some
attempt in its window finds an item named `nm` with id `v`, all earlier
attempts having merely continued (no/falsy response or name not found). -/
theorem DocAnalyzer.waitLoop_found_iff (query : Nat → Option Json) (nm : String) :
    ∀ fuel att v, DocAnalyzer.waitLoop query nm fuel att = Except.ok (some v) ↔
      ∃ i, att ≤ i ∧ i < att + fuel ∧
        DocAnalyzer.attemptAt query nm i = .found (some v) ∧
        ∀ j, att ≤ j → j < i → (DocAnalyzer.attemptAt query nm j).continues := by
  intro fuel
  induction fuel with
  | zero =>
    intro att v
    simp only [DocAnalyzer.waitLoop]
    constructor
    · intro h; cases h
    · rintro ⟨i, h1, h2, -, -⟩; omega
  | succ n ih =>
    intro att v
    rw [DocAnalyzer.waitLoop_succ]
    cases h : DocAnalyzer.attemptAt query nm att with
    | skip =>
      rw [ih]
      constructor
      · rintro ⟨i, h1, h2, hF, hC⟩
        refine ⟨i, by omega, by omega, hF, fun j hj1 hj2 => ?_⟩
        rcases Nat.eq_or_lt_of_le hj1 with rfl | hlt
        · rw [h]; trivial
        · exact hC j (by omega) hj2
      · rintro ⟨i, h1, h2, hF, hC⟩
        have hia : i ≠ att := by
          rintro rfl; rw [h] at hF; cases hF
        exact ⟨i, by omega, by omega, hF, fun j hj1 hj2 => hC j (by omega) hj2⟩
    | notFound =>
      rw [ih]
      constructor
      · rintro ⟨i, h1, h2, hF, hC⟩
        refine ⟨i, by omega, by omega, hF, fun j hj1 hj2 => ?_⟩
        rcases Nat.eq_or_lt_of_le hj1 with rfl | hlt
        · rw [h]; trivial
        · exact hC j (by omega) hj2
      · rintro ⟨i, h1, h2, hF, hC⟩
        have hia : i ≠ att := by
          rintro rfl; rw [h] at hF; cases hF
        exact ⟨i, by omega, by omega, hF, fun j hj1 hj2 => hC j (by omega) hj2⟩
    | crash =>
      constructor
      · intro hh; cases hh
      · rintro ⟨i, h1, h2, hF, hC⟩
        rcases Nat.eq_or_lt_of_le h1 with rfl | hlt
        · rw [h] at hF; cases hF
        · have hc := hC att (le_refl _) hlt
          rw [h] at hc; exact hc.elim
    | found fid =>
      constructor
      · intro hh
        have hfid : fid = some v := by
          injection hh
        exact ⟨att, le_refl _, by omega, by rw [h, hfid],
          fun j hj1 hj2 => absurd hj2 (by omega)⟩
      · rintro ⟨i, h1, h2, hF, hC⟩
        rcases Nat.eq_or_lt_of_le h1 with rfl | hlt
        · rw [h] at hF; injection hF with hfid; rw [hfid]
        · have hc := hC att (le_refl _) hlt
          rw [h] at hc; exact hc.elim

/-- C1 (counterexample): in `document_analyzer.py`, the poller returns
success — the file id `"f1"` — on a run whose only status information is
the listing item's `status: "pending"`; no query ever reported the
terminal value `"ready"`, so success is not equivalent to observing
`"ready"` within the budget, refuting the claim for this source file. -/
theorem C1_counterexample :
    DocAnalyzer.wait_for_file_processing Examples.pendingQuery "doc.txt" 2 =
      Except.ok (some (Json.str "f1")) ∧
    Examples.pendingQuery 1 = some Examples.pendingResp ∧
    Examples.pendingQuery 2 = none ∧
    lookupKv Examples.pendingItem "status" = some (Json.str "pending") :=
  ⟨rfl, rfl, rfl, rfl⟩

/-- C1 (amended): `doc_sum.wait_for_file_processing` returns success iff
some attempt within the budget reports status exactly `"ready"` with no
earlier attempt reporting `"failed"` (failure on `"failed"` or exhausted
attempts).  `document_analyzer.wait_for_file_processing`, by contrast,
returns a file id iff some attempt within the budget finds the searched
file name in the recent-files listing, every earlier attempt having
merely continued — no processing status is consulted and there is no
`"failed"` branch. -/
theorem C1_amended :
    (∀ (q : Nat → DocSum.StatusQuery) (max_attempts : Nat),
      DocSum.wait_for_file_processing q max_attempts = true ↔
        ∃ i, 1 ≤ i ∧ i ≤ max_attempts ∧ (q i).isStatus "ready" = true ∧
          ∀ j, 1 ≤ j → j < i → (q j).isStatus "failed" = false) ∧
    (∀ (query : Nat → Option Json) (nm : String) (max_attempts : Nat) (v : Json),
      DocAnalyzer.wait_for_file_processing query nm max_attempts =
          Except.ok (some v) ↔
        ∃ i, 1 ≤ i ∧ i ≤ max_attempts ∧
          DocAnalyzer.attemptAt query nm i = .found (some v) ∧
          ∀ j, 1 ≤ j → j < i → (DocAnalyzer.attemptAt query nm j).continues) := by
  constructor
  · intro q max_attempts
    unfold DocSum.wait_for_file_processing
    rw [DocSum.waitLoop_true_iff]
    constructor
    · rintro ⟨i, h1, h2, h3, h4⟩; exact ⟨i, h1, by omega, h3, h4⟩
    · rintro ⟨i, h1, h2, h3, h4⟩; exact ⟨i, h1, by omega, h3, h4⟩
  · intro query nm max_attempts v
    unfold DocAnalyzer.wait_for_file_processing
    rw [DocAnalyzer.waitLoop_found_iff]
    constructor
    · rintro ⟨i, h1, h2, h3, h4⟩; exact ⟨i, h1, by omega, h3, h4⟩
    · rintro ⟨i, h1, h2, h3, h4⟩; exact ⟨i, h1, by omega, h3, h4⟩

/-- Every id assembled by the upload-then-poll loop is truthy and was
returned by the poller for the basename of one of the processed files. -/
theorem DocAnalyzer.uploadAll_mem (env : DocAnalyzer.Env) :
    ∀ (files : List String) (ids : List Json) (ops : List NetOp),
      DocAnalyzer.uploadAll env files = .ok (ids, ops) →
      ∀ fid ∈ ids, fid.truthy = true ∧ ∃ fp ∈ files,
        DocAnalyzer.wait_for_file_processing
          (DocAnalyzer.pollOracle env (pyBasename fp)) (pyBasename fp) 2 =
          .ok (some fid) := by
  intro files
  induction files with
  | nil =>
    intro ids ops h fid hfid
    simp only [DocAnalyzer.uploadAll] at h
    injection h with h'
    injection h' with h1 h2
    subst h1
    cases hfid
  | cons fp rest ih =>
    intro ids ops h fid hfid
    simp only [DocAnalyzer.uploadAll] at h
    split at h
    · -- truthy upload result: poll ran
      split at h
      · exact absurd h (by simp)
      · -- poll ok
        split at h
        · exact absurd h (by simp)
        · -- recursive uploadAll ok
          rename_i ids' ops' heq'
          split at h
          · -- item found with some id
            split at h
            · -- truthy id: consed
              injection h with h'
              injection h' with h1 h2
              subst h1
              rcases List.mem_cons.mp hfid with rfl | hmem
              · exact ⟨by assumption, fp, List.mem_cons_self _ _, by assumption⟩
              · rcases ih ids' ops' heq' fid hmem with ⟨ht, fp', hfp', hw⟩
                exact ⟨ht, fp', List.mem_cons_of_mem _ hfp', hw⟩
            · -- falsy id: skipped
              injection h with h'
              injection h' with h1 h2
              subst h1
              rcases ih ids' ops' heq' fid hfid with ⟨ht, fp', hfp', hw⟩
              exact ⟨ht, fp', List.mem_cons_of_mem _ hfp', hw⟩
          · -- no item found
            injection h with h'
            injection h' with h1 h2
            subst h1
            rcases ih ids' ops' heq' fid hfid with ⟨ht, fp', hfp', hw⟩
            exact ⟨ht, fp', List.mem_cons_of_mem _ hfp', hw⟩
    · -- falsy upload result: file skipped
      split at h
      · exact absurd h (by simp)
      · rename_i ids' ops' heq'
        injection h with h'
        injection h' with h1 h2
        subst h1
        rcases ih ids' ops' heq' fid hfid with ⟨ht, fp', hfp', hw⟩
        exact ⟨ht, fp', List.mem_cons_of_mem _ hfp', hw⟩

/-- Truncation never invents files. -/
theorem DocAnalyzer.mem_truncateFiles {mf : Option Nat} {files : List String}
    {fp : String} (h : fp ∈ DocAnalyzer.truncateFiles mf files) : fp ∈ files := by
  cases mf with
  | none => exact h
  | some m =>
    simp only [DocAnalyzer.truncateFiles] at h
    split at h
    · exact List.take_subset _ _ h
    · exact h

/-- Any `dataSources` list sent to chat by the pipeline is exactly the id
list assembled by the upload-then-poll loop over the (truncated) scan. -/
theorem DocAnalyzer.genPlan_chatCalls (env : DocAnalyzer.Env)
    (dp od : String) (mf : Option Nat) (r : DocAnalyzer.PlanResult)
    (ids : List Json)
    (h : DocAnalyzer.generate_organization_plan env dp od mf = .ok r)
    (hids : ids ∈ r.chatCalls) :
    ∃ ops, DocAnalyzer.uploadAll env
        (DocAnalyzer.truncateFiles mf
          (DocAnalyzer.scan_directory_for_files dp env.fs)) = .ok (ids, ops) := by
  simp only [DocAnalyzer.generate_organization_plan] at h
  split at h
  · injection h with h'
    subst h'
    simp at hids
  · split at h
    · exact absurd h (by simp)
    · rename_i file_ids ops hUp
      split at h
      · injection h with h'
        subst h'
        simp at hids
      · by_cases hk : env.hasKey = true
        · simp only [hk, if_true] at h
          split at h
          · -- chat returned nothing truthy: "LLM failed" record
            injection h with h'
            subst h'
            rw [List.mem_singleton.mp hids]
            exact ⟨ops, hUp⟩
          · -- chat succeeded: match on the response
            split at h
            · -- a dict response: match on its data field
              split at h
              · injection h with h'
                subst h'
                rw [List.mem_singleton.mp hids]
                exact ⟨ops, hUp⟩
              · injection h with h'
                subst h'
                rw [List.mem_singleton.mp hids]
                exact ⟨ops, hUp⟩
              · exact absurd h (by simp)
            · exact absurd h (by simp)
        · have hk' : env.hasKey = false := by
            cases hkk : env.hasKey with
            | true => exact absurd hkk hk
            | false => rfl
          simp only [hk', Bool.false_eq_true, if_false] at h
          rw [if_pos (by simp [truthyOpt])] at h
          injection h with h'
          subst h'
          simp at hids


/-- C2 (counterexample): a `generate_organization_plan` run sends the chat
request with file id `"f1"` although the only status information ever
returned for that file was `"pending"` — the poller barrier checks name
presence, not the `ready` state, so the invariant fails in
`document_analyzer.py`. -/
theorem C2_counterexample :
    (DocAnalyzer.generate_organization_plan Examples.pendingEnv "d" "out"
        none).toOption.map DocAnalyzer.PlanResult.chatCalls =
      some [[Json.str "f1"]] ∧
    Examples.pendingEnv.query "doc.txt" 1 = some Examples.pendingResp ∧
    Examples.pendingEnv.query "doc.txt" 2 = none ∧
    lookupKv Examples.pendingItem "status" = some (Json.str "pending") :=
  ⟨rfl, rfl, rfl, rfl⟩

/-- C2 (amended): in `doc_sum.py` the invariant holds — the summarization
request references `[file_id]` only after the poller observed status
exactly `"ready"` within its 10-attempt budget.  In
`document_analyzer.py` the poller barrier only establishes that each
referenced (truthy) file id was returned by a name lookup against the
recent-files query for one of the scanned files; it does not establish
the `ready` state. -/
theorem C2_amended :
    (∀ (env : DocSum.Env) (l : List Json),
      (DocSum.summarize_document env).request = some l →
      ∃ fid, l = [fid] ∧ ∃ i, 1 ≤ i ∧ i ≤ 10 ∧
        (env.statusQuery i).isStatus "ready" = true) ∧
    (∀ (env : DocAnalyzer.Env) (dp od : String) (mf : Option Nat)
        (r : DocAnalyzer.PlanResult) (ids : List Json) (fid : Json),
      DocAnalyzer.generate_organization_plan env dp od mf = .ok r →
      ids ∈ r.chatCalls → fid ∈ ids →
      fid.truthy = true ∧
        ∃ fp ∈ DocAnalyzer.scan_directory_for_files dp env.fs,
          DocAnalyzer.wait_for_file_processing
            (DocAnalyzer.pollOracle env (pyBasename fp)) (pyBasename fp) 2 =
            Except.ok (some fid)) := by
  constructor
  · intro env l h
    simp only [DocSum.summarize_document] at h
    rcases hu : DocSum.upload_file_to_amplify env.upload with ⟨ur, ops⟩
    rw [hu] at h
    cases ur with
    | none => simp at h
    | some kvs =>
      dsimp only at h
      by_cases htr : (Json.obj kvs).truthy = true
      · rw [if_neg (not_not_intro htr)] at h
        cases hlk : lookupKv kvs "id" with
        | none => rw [hlk] at h; simp at h
        | some fid =>
          rw [hlk] at h
          dsimp only at h
          by_cases hft : fid.truthy = true
          · rw [if_neg (not_not_intro hft)] at h
            by_cases hW : DocSum.wait_for_file_processing env.statusQuery 10 = true
            · rw [if_pos hW] at h
              simp only [Option.some.injEq] at h
              have hW' : DocSum.waitLoop env.statusQuery 10 1 = true := hW
              rcases (DocSum.waitLoop_true_iff env.statusQuery 10 1).mp hW' with
                ⟨i, h1, h2, h3, -⟩
              exact ⟨fid, h.symm, i, h1, by omega, h3⟩
            · rw [if_neg hW] at h; simp at h
          · rw [if_pos (by simpa using hft)] at h; simp at h
      · rw [if_pos (by simpa using htr)] at h
        simp at h
  · intro env dp od mf r ids fid h hids hfid
    rcases DocAnalyzer.genPlan_chatCalls env dp od mf r ids h hids with ⟨ops, hUp⟩
    rcases DocAnalyzer.uploadAll_mem env _ ids ops hUp fid hfid with
      ⟨ht, fp, hfp, hw⟩
    exact ⟨ht, fp, DocAnalyzer.mem_truncateFiles hfp, hw⟩

/-- Witness for C2 (amended): a concrete `doc_sum` run whose upload
returned id `"f1"` and whose status query reported `"ready"`. -/
theorem C2_witness :
    ∃ fid, [Json.str "f1"] = [fid] ∧ ∃ i, 1 ≤ i ∧ i ≤ 10 ∧
      (Examples.dsReadyEnv.statusQuery i).isStatus "ready" = true :=
  C2_amended.1 Examples.dsReadyEnv [Json.str "f1"] rfl

/-- C3: in both source files, when the metadata phase succeeds (and, in
`document_analyzer.py`, reports success with a pre-signed URL) but the
byte-transfer PUT fails, `upload_file_to_amplify` returns the failure
signal `None`, never the metadata response. -/
theorem C3_put_failure_is_not_success :
    (∀ (env : DocSum.UploadEnv) (kvs : List (String × Json)),
      env.post = some kvs →
      truthyOpt (lookupKv kvs "uploadUrl") = true →
      env.putOk = false →
      (DocSum.upload_file_to_amplify env).1 = none) ∧
    (∀ (env : DocAnalyzer.UploadEnv) (fp : String) (kvs : List (String × Json)),
      env.fileExists = true →
      env.post = some kvs →
      truthyOpt (lookupKv kvs "success") = true →
      truthyOpt (lookupKv kvs "uploadUrl") = true →
      env.readOk = true →
      env.putOk = false →
      (DocAnalyzer.upload_file_to_amplify true env fp).ret = none) := by
  constructor
  · intro env kvs hp hurl hput
    simp [DocSum.upload_file_to_amplify, hp, hurl, hput]
  · intro env fp kvs hex hp hsucc hurl hread hput
    simp [DocAnalyzer.upload_file_to_amplify, hex, hp, hsucc, hurl, hread, hput]

/-- Witness for C3: concrete environments whose PUT fails after a
successful metadata phase. -/
theorem C3_witness :
    (DocSum.upload_file_to_amplify Examples.putFailEnvDS).1 = none ∧
    (DocAnalyzer.upload_file_to_amplify true Examples.putFailEnvDA
      "f.txt").ret = none :=
  ⟨C3_put_failure_is_not_success.1 Examples.putFailEnvDS
      [("uploadUrl", .str "u"), ("id", .str "f1")] rfl rfl rfl,
   C3_put_failure_is_not_success.2 Examples.putFailEnvDA "f.txt"
      [("success", .bool true), ("uploadUrl", .str "https://s3/u"),
       ("id", .str "srv")] rfl rfl rfl rfl rfl rfl⟩

/-- C9: on a successful metadata response with no `uploadUrl` key,
`doc_sum.upload_file_to_amplify` returns the metadata response as overall
success without attempting the byte PUT (its operation list stops at the
POST), whereas `document_analyzer.upload_file_to_amplify` returns the
failure signal `None`. -/
theorem C9_missing_uploadUrl_divergence :
    (DocSum.upload_file_to_amplify ⟨some Examples.noUrlResp, true⟩).1 =
      some Examples.noUrlResp ∧
    (DocSum.upload_file_to_amplify ⟨some Examples.noUrlResp, true⟩).2 =
      [NetOp.uploadPost] ∧
    (DocAnalyzer.upload_file_to_amplify true
        { Examples.okUploadEnv with post := some Examples.noUrlResp }
        "f.txt").ret = none :=
  ⟨rfl, rfl, rfl⟩

/-- A character list with no slash has no last-slash split. -/
theorem lastSlashSplit_eq_none {l : List Char} (h : '/' ∉ l) :
    lastSlashSplit l = none := by
  induction l with
  | nil => rfl
  | cons c cs ih =>
    have hc : c ≠ '/' := fun hc => h (hc ▸ List.mem_cons_self c cs)
    have hcs : '/' ∉ cs := fun hm => h (List.mem_cons_of_mem c hm)
    simp only [lastSlashSplit, ih hcs]
    exact if_neg hc

/-- A list without a last-slash split contains no slash. -/
theorem not_mem_of_lastSlashSplit_eq_none :
    ∀ {l : List Char}, lastSlashSplit l = none → '/' ∉ l := by
  intro l
  induction l with
  | nil => intro _ h; cases h
  | cons c cs ih =>
    intro h hm
    simp only [lastSlashSplit] at h
    rcases hsplit : lastSlashSplit cs with - | ⟨b, a⟩ <;> rw [hsplit] at h
    · by_cases hc : c = '/'
      · rw [if_pos hc] at h; cases h
      · rcases List.mem_cons.mp hm with rfl | hmem
        · exact hc rfl
        · exact ih hsplit hmem
    · cases h

/-- The part after the last slash is slash-free. -/
theorem lastSlashSplit_after_no_slash :
    ∀ {l b a : List Char}, lastSlashSplit l = some (b, a) → '/' ∉ a := by
  intro l
  induction l with
  | nil => intro b a h; cases h
  | cons c cs ih =>
    intro b a h
    simp only [lastSlashSplit] at h
    rcases hsplit : lastSlashSplit cs with - | ⟨b', a'⟩ <;> rw [hsplit] at h
    · by_cases hc : c = '/'
      · rw [if_pos hc] at h
        injection h with h'
        injection h' with h1 h2
        subst h2
        exact not_mem_of_lastSlashSplit_eq_none hsplit
      · rw [if_neg hc] at h; cases h
    · injection h with h'
      injection h' with h1 h2
      subst h2
      exact ih hsplit

/-- `os.path.basename` never contains a slash. -/
theorem pyBasename_no_slash (s : String) : '/' ∉ (pyBasename s).data := by
  unfold pyBasename
  rcases h : lastSlashSplit s.data with - | ⟨b, a⟩
  · exact not_mem_of_lastSlashSplit_eq_none h
  · exact lastSlashSplit_after_no_slash h

/-- Splitting at an explicit final slash. -/
theorem lastSlashSplit_append (y : List Char) (hy : '/' ∉ y) :
    ∀ x : List Char, lastSlashSplit (x ++ '/' :: y) = some (x, y) := by
  intro x
  induction x with
  | nil =>
    simp only [List.nil_append, lastSlashSplit, lastSlashSplit_eq_none hy]
    rfl
  | cons c x' ih =>
    simp only [List.cons_append, lastSlashSplit, List.append_eq, ih]

/-- `os.path.dirname (os.path.join a b) = a` when `a` is a non-empty path
without a trailing slash and `b` is slash-free. -/
theorem pyDirname_ospJoin (a b : String) (ha : a ≠ "")
    (ha2 : endsWithSlash a = false) (hb : '/' ∉ b.data) :
    pyDirname (ospJoin a b) = a := by
  unfold ospJoin
  rw [if_neg ha, if_neg (by rw [ha2]; exact Bool.false_ne_true)]
  unfold pyDirname
  have hdata : (a ++ "/" ++ b).data = a.data ++ '/' :: b.data := by
    rw [String.data_append, String.data_append]
    simp [List.append_assoc]
  rw [hdata, lastSlashSplit_append b.data hb a.data]

/-- C7: whenever `document_analyzer.upload_file_to_amplify` runs, the
temporary directories it deletes are exactly the temporary directories
hydration created (so a created hydration copy is always cleaned up —
upload success or failure — and nothing else is touched); and whenever a
hydration copy is actually created, that directory is the single
`mkdtemp` directory.  The side conditions say only that `mkdtemp`
returned a non-empty name without a trailing slash. -/
theorem C7_hydration_temp_dir_cleanup :
    ∀ (hasKey : Bool) (env : DocAnalyzer.UploadEnv) (fp : String),
      env.hydrate.tmpdir ≠ "" → endsWithSlash env.hydrate.tmpdir = false →
      (DocAnalyzer.upload_file_to_amplify hasKey env fp).deletedDirs =
        (DocAnalyzer.upload_file_to_amplify hasKey env fp).createdDirs ∧
      (hasKey = true → env.fileExists = true → env.isWindows = true →
        env.isPlaceholder = true → env.hydrate.robocopyOk = true →
        (DocAnalyzer.upload_file_to_amplify hasKey env fp).createdDirs =
          [env.hydrate.tmpdir]) := by
  intro hasKey env fp htmp hslash
  cases hk : hasKey with
  | false =>
    refine ⟨by simp [DocAnalyzer.upload_file_to_amplify], ?_⟩
    intro hcontra
    cases hcontra
  | true =>
    cases hex : env.fileExists with
    | false =>
      refine ⟨by simp [DocAnalyzer.upload_file_to_amplify, hex], ?_⟩
      intro _ hcontra
      cases hcontra
    | true =>
      by_cases hWP : env.isWindows = true ∧ env.isPlaceholder = true
      · cases hrob : env.hydrate.robocopyOk with
        | true =>
          constructor
          · simp only [DocAnalyzer.upload_file_to_amplify,
              DocAnalyzer.hydrate_file_with_robocopy, hex, hWP.1, hWP.2, hrob,
              Bool.not_true, Bool.false_eq_true, if_false, if_true, and_self,
              not_true_eq_false]
            simp [pyDirname_ospJoin env.hydrate.tmpdir (pyBasename fp) htmp
              hslash (pyBasename_no_slash fp)]
          · intro _ _ _ _ _
            simp [DocAnalyzer.upload_file_to_amplify,
              DocAnalyzer.hydrate_file_with_robocopy, hex, hWP.1, hWP.2, hrob]
        | false =>
          constructor
          · simp [DocAnalyzer.upload_file_to_amplify,
              DocAnalyzer.hydrate_file_with_robocopy, hex, hWP.1, hWP.2, hrob]
          · intro _ _ _ _ hcontra
            cases hcontra
      · constructor
        · simp [DocAnalyzer.upload_file_to_amplify, hex, hWP]
        · intro _ _ hw hp _
          exact absurd ⟨hw, hp⟩ hWP

/-- Witness for C7: a concrete Windows upload whose hydrated copy is
created and whose PUT then fails; the hydration directory is still both
the only directory created and the only directory deleted. -/
theorem C7_witness :
    (DocAnalyzer.upload_file_to_amplify true Examples.hydratePutFailEnv
        "C:/docs/report.pdf").deletedDirs =
      (DocAnalyzer.upload_file_to_amplify true Examples.hydratePutFailEnv
        "C:/docs/report.pdf").createdDirs ∧
    (DocAnalyzer.upload_file_to_amplify true Examples.hydratePutFailEnv
        "C:/docs/report.pdf").createdDirs = ["/tmp/onedrive_hydrate_cd"] := by
  have h := C7_hydration_temp_dir_cleanup true Examples.hydratePutFailEnv
    "C:/docs/report.pdf" (by decide) (by decide)
  exact ⟨h.1, h.2 rfl rfl rfl rfl rfl⟩

/-- With no API key, every upload short-circuits before any HTTP request,
so the upload-then-poll loop assembles nothing and performs nothing. -/
theorem DocAnalyzer.uploadAll_no_key (env : DocAnalyzer.Env)
    (hk : env.hasKey = false) :
    ∀ files, DocAnalyzer.uploadAll env files = .ok ([], []) := by
  intro files
  induction files with
  | nil => rfl
  | cons fp rest ih =>
    have hret : (DocAnalyzer.upload_file_to_amplify env.hasKey
        (env.uploadEnv fp) fp).ret = none := by
      simp [DocAnalyzer.upload_file_to_amplify, hk]
    have hops : (DocAnalyzer.upload_file_to_amplify env.hasKey
        (env.uploadEnv fp) fp).netOps = [] := by
      simp [DocAnalyzer.upload_file_to_amplify, hk]
    simp only [DocAnalyzer.uploadAll, hret, hops, truthyOpt, ih,
      Bool.false_eq_true, if_false, List.nil_append]

/-- With no API key the pipeline reports failure having sent nothing. -/
theorem DocAnalyzer.genPlan_no_key (env : DocAnalyzer.Env) (dp od : String)
    (mf : Option Nat) (hk : env.hasKey = false) :
    ∃ r, DocAnalyzer.generate_organization_plan env dp od mf = .ok r ∧
      r.success = false ∧ r.netOps = [] ∧ r.chatCalls = [] := by
  simp only [DocAnalyzer.generate_organization_plan]
  by_cases hs : (DocAnalyzer.scan_directory_for_files dp env.fs).isEmpty = true
  · rw [if_pos hs]
    exact ⟨_, rfl, rfl, rfl, rfl⟩
  · rw [if_neg hs, DocAnalyzer.uploadAll_no_key env hk]
    exact ⟨_, rfl, rfl, rfl, rfl⟩

/-- C8: with the API key absent from the environment, `doc_sum.py` exits
with code 1 immediately (module body), having performed no network
operation; and `document_analyzer.py` performs no upload/poll/chat
network operation either — every `get_headers()` returns `None` first —
its pipeline reports failure and the process exits with code 2. -/
theorem C8_missing_key_fails_fast :
    (∀ (apiKey : Option String) (argvOk fileOk : Bool) (env : DocSum.Env),
      keyMissing apiKey = true →
      DocSum.program apiKey argvOk fileOk env = (some 1, [])) ∧
    (∀ (env : DocAnalyzer.Env) (dp od : String) (mf : Option Nat),
      env.hasKey = false →
      ∃ r, DocAnalyzer.generate_organization_plan env dp od mf = .ok r ∧
        r.success = false ∧ r.netOps = [] ∧ r.chatCalls = []) ∧
    (∀ (env : DocAnalyzer.Env) (dp od : String),
      env.hasKey = false →
      DocAnalyzer.mainExitCode env dp od = 2) := by
  refine ⟨?_, DocAnalyzer.genPlan_no_key, ?_⟩
  · intro apiKey argvOk fileOk env hk
    simp [DocSum.program, hk]
  · intro env dp od hk
    rcases DocAnalyzer.genPlan_no_key env dp od none hk with ⟨r, hr, hsucc, -, -⟩
    simp [DocAnalyzer.mainExitCode, hr, hsucc]

/-- Witness for C8: the concrete no-key runs. -/
theorem C8_witness :
    DocSum.program none true true Examples.dsReadyEnv = (some 1, []) ∧
    DocAnalyzer.mainExitCode Examples.noKeyEnv "d" "out" = 2 :=
  ⟨C8_missing_key_fails_fast.1 none true true Examples.dsReadyEnv rfl,
   C8_missing_key_fails_fast.2.2 Examples.noKeyEnv "d" "out" rfl⟩

/-- `Nat.toDigitsCore` never shortens its accumulator. -/
theorem toDigitsCore_length_ge (b : Nat) :
    ∀ (fuel n : Nat) (ds : List Char),
      ds.length ≤ (Nat.toDigitsCore b fuel n ds).length := by
  intro fuel
  induction fuel with
  | zero => intro n ds; simp [Nat.toDigitsCore]
  | succ f ih =>
    intro n ds
    simp only [Nat.toDigitsCore]
    split
    · simp
    · calc ds.length ≤ (Nat.digitChar (n % b) :: ds).length := by simp
        _ ≤ _ := ih _ _

/-- `Nat.toDigits` is never empty. -/
theorem nat_toDigits_length_pos (b n : Nat) : 0 < (Nat.toDigits b n).length := by
  unfold Nat.toDigits
  simp only [Nat.toDigitsCore]
  split
  · simp
  · have h := toDigitsCore_length_ge b n (n / b) [Nat.digitChar (n % b)]
    simp at h
    omega

/-- Integer rendering is never the empty string. -/
theorem intToString_ne_empty (n : Int) : toString n ≠ "" := by
  cases n with
  | ofNat m =>
    simp only [toString, Int.repr, Nat.repr]
    intro h
    have hlen : (Nat.toDigits 10 m).length = 0 := by
      have h2 := congrArg String.length h
      simpa [String.length, List.asString] using h2
    have h3 := nat_toDigits_length_pos 10 m
    omega
  | negSucc m =>
    simp only [toString, Int.repr]
    intro h
    have h2 := congrArg String.length h
    simp [String.length_append] at h2
    exact absurd h2.1 (by decide)

/-- The serializer never produces the empty string. -/
theorem Json.dumps_ne_empty (j : Json) : Json.dumps j ≠ "" := by
  cases j with
  | null => simp [Json.dumps]
  | bool b => cases b <;> simp [Json.dumps]
  | num n => simpa [Json.dumps] using intToString_ne_empty n
  | str s =>
    intro h
    have h2 := congrArg String.length h
    simp [Json.dumps, String.length_append] at h2
    exact absurd h2.2 (by decide)
  | arr xs =>
    intro h
    have h2 := congrArg String.length h
    simp [Json.dumps, String.length_append] at h2
    exact absurd h2.2 (by decide)
  | obj kvs =>
    intro h
    have h2 := congrArg String.length h
    simp [Json.dumps, String.length_append] at h2
    exact absurd h2.2 (by decide)

/-- `x if isinstance(x, str) else json.dumps(x)` of a truthy value is
never the empty string. -/
theorem strOrDumps_ne_empty :
    ∀ {j : Json}, j.truthy = true → DocAnalyzer.strOrDumps j ≠ "" := by
  intro j
  cases j with
  | str s =>
    intro hj
    simpa [DocAnalyzer.strOrDumps, Json.truthy] using hj
  | null => intro hj; exact Json.dumps_ne_empty _
  | bool b => intro hj; exact Json.dumps_ne_empty _
  | num n => intro hj; exact Json.dumps_ne_empty _
  | arr xs => intro hj; exact Json.dumps_ne_empty _
  | obj kvs => intro hj; exact Json.dumps_ne_empty _

/-- The first extraction probe only ever returns non-empty strings: every
string it returns passes a Python truthiness test first. -/
theorem DocAnalyzer.probeChoices_ne_empty :
    ∀ (resp : Json) (s : String),
      DocAnalyzer.probeChoices resp = some s → s ≠ "" := by
  intro resp s h
  unfold DocAnalyzer.probeChoices at h
  dsimp only at h
  repeat' split at h
  all_goals
    first
    | exact Option.noConfusion h
    | (injection h with h'
       subst h'
       exact strOrDumps_ne_empty (by assumption))

/-- C4 (counterexample): the response `{"data": ""}` is non-empty (truthy)
yet `_extract_text_from_amplify_response` returns the empty string for it
— the top-level `data` string is returned verbatim even when empty, so
"never returns an empty string for a non-empty response" fails. -/
theorem C4_counterexample :
    DocAnalyzer._extract_text_from_amplify_response
      (.obj [("data", Json.str "")]) = "" ∧
    (Json.obj [("data", Json.str "")]).truthy = true :=
  ⟨rfl, rfl⟩

/-- C4 (amended): the extractor (i) returns the nested
`data.choices[0].message.content` string when it is non-empty, (ii)
returns a top-level string `data` field verbatim (even when empty —
which is the only correction the counterexample forces), (iii) falls
back to serializing the whole response when both probes fail, and (iv)
returns the empty string exactly when the response is falsy or the
second probe selected an empty string while the first found nothing.  It
never throws: it is a total function by construction. -/
theorem C4_amended :
    (∀ s : String, s ≠ "" →
      DocAnalyzer._extract_text_from_amplify_response
        (.obj [("data", .obj [("choices",
          .arr [.obj [("message", .obj [("content", .str s)])]])])]) = s) ∧
    (∀ (kvs : List (String × Json)) (s : String),
      lookupKv kvs "data" = some (.str s) →
      DocAnalyzer._extract_text_from_amplify_response (.obj kvs) = s) ∧
    (∀ resp : Json, resp.truthy = true →
      DocAnalyzer.probeChoices resp = none →
      DocAnalyzer.probeData resp = none →
      DocAnalyzer._extract_text_from_amplify_response resp = Json.dumps resp) ∧
    (∀ resp : Json,
      DocAnalyzer._extract_text_from_amplify_response resp = "" ↔
        (resp.truthy = false ∨
          (DocAnalyzer.probeChoices resp = none ∧
           DocAnalyzer.probeData resp = some ""))) := by
  refine ⟨?_, ?_, ?_, ?_⟩
  · intro s hs
    have hs' : (s != "") = true := by simpa using hs
    simp [DocAnalyzer._extract_text_from_amplify_response,
      DocAnalyzer.probeChoices, DocAnalyzer.strOrDumps, lookupKv, getJ, pyOr,
      Json.truthy, hs']
  · intro kvs s hlk
    have hne : kvs ≠ [] := by
      rintro rfl
      cases hlk
    have htr : (Json.obj kvs).truthy = true := by
      simp [Json.truthy, hne]
    simp [DocAnalyzer._extract_text_from_amplify_response,
      DocAnalyzer.probeChoices, DocAnalyzer.probeData, hlk, htr]
  · intro resp ht h1 h2
    simp [DocAnalyzer._extract_text_from_amplify_response, ht, h1, h2]
  · intro resp
    constructor
    · intro h
      by_cases ht : resp.truthy = true
      · right
        unfold DocAnalyzer._extract_text_from_amplify_response at h
        rw [if_neg (by simp [ht])] at h
        cases hc : DocAnalyzer.probeChoices resp with
        | some s =>
          rw [hc] at h
          exact absurd h (DocAnalyzer.probeChoices_ne_empty resp s hc)
        | none =>
          rw [hc] at h
          cases hd : DocAnalyzer.probeData resp with
          | some s =>
            rw [hd] at h
            dsimp only at h
            subst h
            exact ⟨rfl, rfl⟩
          | none =>
            rw [hd] at h
            exact absurd h (Json.dumps_ne_empty resp)
      · left
        cases htt : resp.truthy with
        | true => exact absurd htt ht
        | false => rfl
    · intro h
      rcases h with hft | ⟨hc, hd⟩
      · simp [DocAnalyzer._extract_text_from_amplify_response, hft]
      · by_cases ht : resp.truthy = true
        · simp [DocAnalyzer._extract_text_from_amplify_response, ht, hc, hd]
        · simp [DocAnalyzer._extract_text_from_amplify_response, ht]

/-- Witness for C4 (amended): the three extraction behaviours at concrete
responses. -/
theorem C4_witness :
    DocAnalyzer._extract_text_from_amplify_response
      (.obj [("data", .obj [("choices",
        .arr [.obj [("message", .obj [("content", .str "CONTENT")])]])])]) =
      "CONTENT" ∧
    DocAnalyzer._extract_text_from_amplify_response
      (.obj [("data", Json.str "verbatim")]) = "verbatim" ∧
    DocAnalyzer._extract_text_from_amplify_response (.obj [("x", Json.num 3)]) =
      Json.dumps (.obj [("x", Json.num 3)]) :=
  ⟨C4_amended.1 "CONTENT" (by decide),
   C4_amended.2.1 [("data", Json.str "verbatim")] "verbatim" rfl,
   C4_amended.2.2.1 (.obj [("x", Json.num 3)]) rfl rfl rfl⟩

/-- C5: whenever `generate_organization_plan` completes successfully and
the chat response it used carries a string `data` field, the single
write it performs is exactly that string, unmodified, to
`<output_dir>/organization_commands.bat`. -/
theorem C5_plan_written_verbatim :
    ∀ (env : DocAnalyzer.Env) (dp od : String) (mf : Option Nat)
      (r : DocAnalyzer.PlanResult) (ckvs : List (String × Json)) (s : String),
      DocAnalyzer.generate_organization_plan env dp od mf = .ok r →
      r.chatResponse = some (.obj ckvs) →
      lookupKv ckvs "data" = some (.str s) →
      r.success = true ∧
      r.writes = [(ospJoin od "organization_commands.bat", s)] ∧
      r.outputFilePath = some (ospJoin od "organization_commands.bat") := by
  intro env dp od mf r ckvs s h hcr hdata
  simp only [DocAnalyzer.generate_organization_plan] at h
  split at h
  · injection h with h'
    subst h'
    cases hcr
  · split at h
    · exact absurd h (by simp)
    · rename_i file_ids ops hUp
      split at h
      · injection h with h'
        subst h'
        cases hcr
      · by_cases hk : env.hasKey = true
        · simp only [hk, if_true] at h
          split at h
          · injection h with h'
            subst h'
            cases hcr
          · split at h
            · -- chat response is a dict: match on its data field
              split at h
              · injection h with h'
                subst h'
                dsimp only at hcr ⊢
                simp_all
              · injection h with h'
                subst h'
                dsimp only at hcr ⊢
                simp_all
              · exact absurd h (by simp)
            · exact absurd h (by simp)
        · have hk' : env.hasKey = false := by
            cases hkk : env.hasKey with
            | true => exact absurd hkk hk
            | false => rfl
          simp only [hk', Bool.false_eq_true, if_false] at h
          rw [if_pos (by simp [truthyOpt])] at h
          injection h with h'
          subst h'
          cases hcr

/-- Witness for C5: the concrete pipeline run writes the chat text
`"mkdir plans"` verbatim to `out/organization_commands.bat`. -/
theorem C5_witness :
    ∃ r, DocAnalyzer.generate_organization_plan Examples.pendingEnv "d" "out"
        none = .ok r ∧ r.success = true ∧
      r.writes = [(ospJoin "out" "organization_commands.bat", "mkdir plans")] ∧
      r.outputFilePath = some (ospJoin "out" "organization_commands.bat") := by
  refine ⟨_, rfl, ?_⟩
  exact C5_plan_written_verbatim Examples.pendingEnv "d" "out" none _
    [("data", Json.str "mkdir plans")] "mkdir plans" rfl rfl rfl

mutual
/-- Walk membership: the walk visits exactly the directories reachable
without entering an excluded name, rooted at the corresponding joined
path. -/
theorem DocAnalyzer.mem_walkDir_iff :
    ∀ (t : DocAnalyzer.Dir) (path rp : String) (fls : List String),
      (rp, fls) ∈ DocAnalyzer.walkDir path t ↔
        ∃ (ds : List String) (sub : DocAnalyzer.Dir),
          DocAnalyzer.DirPath t ds sub ∧ rp = ds.foldl ospJoin path ∧
          fls = sub.files
  | .node subdirs files, path, rp, fls => by
    simp only [DocAnalyzer.walkDir, List.mem_cons]
    constructor
    · rintro (h | h)
      · injection h with h1 h2
        exact ⟨[], .node subdirs files, .here _, h1, h2⟩
      · rcases (DocAnalyzer.mem_walkDirs_iff subdirs path rp fls).mp h with
          ⟨d, sub, ds, sub', hmem, hnx, hdp, hrp, hfls⟩
        exact ⟨d :: ds, sub', .step hmem hnx hdp, hrp, hfls⟩
    · rintro ⟨ds, sub, hdp, hrp, hfls⟩
      cases hdp with
      | here => exact Or.inl (by rw [hrp, hfls]; rfl)
      | step hmem hnx hdp' =>
        rename_i d sub2 ds2
        exact Or.inr ((DocAnalyzer.mem_walkDirs_iff subdirs path rp fls).mpr
          ⟨d, sub2, ds2, sub, hmem, hnx, hdp', hrp, hfls⟩)

/-- Walk membership over a subdirectory list, with pruning. -/
theorem DocAnalyzer.mem_walkDirs_iff :
    ∀ (l : List (String × DocAnalyzer.Dir)) (path rp : String)
      (fls : List String),
      (rp, fls) ∈ DocAnalyzer.walkDirs path l ↔
        ∃ (d : String) (sub : DocAnalyzer.Dir) (ds : List String)
          (sub' : DocAnalyzer.Dir),
          (d, sub) ∈ l ∧ d ∉ DocAnalyzer.excludedDirNames ∧
          DocAnalyzer.DirPath sub ds sub' ∧
          rp = ds.foldl ospJoin (ospJoin path d) ∧ fls = sub'.files
  | [], path, rp, fls => by
    simp [DocAnalyzer.walkDirs]
  | (d0, sub0) :: rest, path, rp, fls => by
    simp only [DocAnalyzer.walkDirs, List.mem_append]
    constructor
    · rintro (h | h)
      · by_cases hex : DocAnalyzer.excludedDirNames.contains d0 = true
        · rw [if_pos hex] at h
          cases h
        · rw [if_neg hex] at h
          rcases (DocAnalyzer.mem_walkDir_iff sub0 (ospJoin path d0) rp fls).mp h
            with ⟨ds, sub', hdp, hrp, hfls⟩
          refine ⟨d0, sub0, ds, sub', List.mem_cons_self _ _, ?_, hdp, hrp, hfls⟩
          intro hmem
          exact hex (by simpa [List.elem_iff] using hmem)
      · rcases (DocAnalyzer.mem_walkDirs_iff rest path rp fls).mp h with
          ⟨d, sub, ds, sub', hmem, hnx, hdp, hrp, hfls⟩
        exact ⟨d, sub, ds, sub', List.mem_cons_of_mem _ hmem, hnx, hdp, hrp, hfls⟩
    · rintro ⟨d, sub, ds, sub', hmem, hnx, hdp, hrp, hfls⟩
      rcases List.mem_cons.mp hmem with heq | hmem'
      · injection heq with hd hsub
        subst hd
        subst hsub
        left
        have hex : ¬ DocAnalyzer.excludedDirNames.contains d = true := by
          intro hc
          exact hnx (by simpa [List.elem_iff] using hc)
        rw [if_neg hex]
        exact (DocAnalyzer.mem_walkDir_iff sub (ospJoin path d) rp fls).mpr
          ⟨ds, sub', hdp, hrp, hfls⟩
      · right
        exact (DocAnalyzer.mem_walkDirs_iff rest path rp fls).mpr
          ⟨d, sub, ds, sub', hmem', hnx, hdp, hrp, hfls⟩
end

/-- Scan membership characterization: a path is scanned iff it is the
root-joined path of a file, with allow-listed lowercased extension,
inside a directory reachable without entering any excluded name. -/
theorem DocAnalyzer.mem_scan_iff (root : String) (t : DocAnalyzer.Dir)
    (p : String) (hroot : root ≠ "") :
    p ∈ DocAnalyzer.scan_directory_for_files root (some t) ↔
      ∃ (ds : List String) (sub : DocAnalyzer.Dir) (f : String),
        DocAnalyzer.DirPath t ds sub ∧ f ∈ sub.files ∧
        pyLower (DocAnalyzer.splitextExt f) ∈
          DocAnalyzer.get_supported_file_extensions ∧
        p = ospJoin (ds.foldl ospJoin root) f := by
  unfold DocAnalyzer.scan_directory_for_files
  rw [if_neg hroot]
  simp only [List.mem_flatMap, Prod.exists]
  constructor
  · rintro ⟨rp, fls, hw, hp⟩
    rcases (DocAnalyzer.mem_walkDir_iff t root rp fls).mp hw with
      ⟨ds, sub, hdp, hrp, hfls⟩
    simp only [DocAnalyzer.scanFiles, List.mem_filterMap] at hp
    rcases hp with ⟨f, hf, hcond⟩
    by_cases hext : DocAnalyzer.get_supported_file_extensions.contains
        (pyLower (DocAnalyzer.splitextExt f)) = true
    · rw [if_pos hext] at hcond
      injection hcond with hcond'
      exact ⟨ds, sub, f, hdp, by rw [hfls] at hf; exact hf,
        by simpa [List.elem_iff] using hext, by rw [← hcond', hrp]⟩
    · rw [if_neg hext] at hcond
      cases hcond
  · rintro ⟨ds, sub, f, hdp, hf, hext, hp⟩
    refine ⟨ds.foldl ospJoin root, sub.files,
      (DocAnalyzer.mem_walkDir_iff t root _ _).mpr ⟨ds, sub, hdp, rfl, rfl⟩, ?_⟩
    simp only [DocAnalyzer.scanFiles, List.mem_filterMap]
    refine ⟨f, hf, ?_⟩
    rw [if_pos (by simpa [List.elem_iff] using hext)]
    rw [hp]

/-- Strings with equal character data are equal. -/
theorem string_ext {a b : String} (h : a.data = b.data) : a = b := by
  cases a
  cases b
  exact congrArg String.mk h

/-- Non-empty character data means a non-empty string. -/
theorem string_ne_empty_of_data {s : String} (h : s.data ≠ []) : s ≠ "" := by
  intro hc
  subst hc
  exact h rfl

/-- `splitSlash` never returns the empty segment list. -/
theorem splitSlash_ne_nil : ∀ l : List Char, splitSlash l ≠ [] := by
  intro l
  cases l with
  | nil => simp [splitSlash]
  | cons c cs =>
    simp only [splitSlash]
    by_cases hc : c = '/'
    · rw [if_pos hc]; simp
    · rw [if_neg hc]
      rcases h : splitSlash cs with - | ⟨seg, rest⟩ <;> simp

/-- A slash-free list is a single segment. -/
theorem splitSlash_no_slash : ∀ {l : List Char}, '/' ∉ l → splitSlash l = [l] := by
  intro l
  induction l with
  | nil => intro _; rfl
  | cons c cs ih =>
    intro h
    have hc : c ≠ '/' := fun hc => h (hc ▸ List.mem_cons_self c cs)
    have hcs : '/' ∉ cs := fun hm => h (List.mem_cons_of_mem c hm)
    simp only [splitSlash, if_neg hc, ih hcs]

/-- Splitting distributes over an explicit separator. -/
theorem splitSlash_append :
    ∀ (x y : List Char), splitSlash (x ++ '/' :: y) = splitSlash x ++ splitSlash y := by
  intro x y
  induction x with
  | nil => simp [splitSlash]
  | cons c x' ih =>
    have ih' : splitSlash (x'.append ('/' :: y)) = splitSlash x' ++ splitSlash y := ih
    simp only [List.cons_append, splitSlash, ih', ih]
    by_cases hc : c = '/'
    · rw [if_pos hc, if_pos hc]
      rfl
    · rw [if_neg hc, if_neg hc]
      rcases h : splitSlash x' with - | ⟨seg, rest⟩
      · exact absurd h (splitSlash_ne_nil x')
      · rfl

/-- The fingerprint of a join: one more segment. -/
theorem splitSlash_ospJoin (a b : String) (ha : a ≠ "")
    (ha2 : endsWithSlash a = false) (hb : '/' ∉ b.data) :
    splitSlash (ospJoin a b).data = splitSlash a.data ++ [b.data] := by
  unfold ospJoin
  rw [if_neg ha, if_neg (by simp [ha2])]
  have hdata : (a ++ "/" ++ b).data = a.data ++ '/' :: b.data := by
    rw [String.data_append, String.data_append]
    simp [List.append_assoc]
  rw [hdata, splitSlash_append, splitSlash_no_slash hb]

/-- Joining a good name onto a good path yields a good path. -/
theorem ospJoin_good (a b : String) (ha : a ≠ "")
    (ha2 : endsWithSlash a = false) (hb1 : b ≠ "") (hb2 : '/' ∉ b.data) :
    ospJoin a b ≠ "" ∧ endsWithSlash (ospJoin a b) = false := by
  have hbd : b.data ≠ [] := by
    intro hc
    exact hb1 (string_ext (by rw [hc]))
  have hj : ospJoin a b = a ++ "/" ++ b := by
    unfold ospJoin
    rw [if_neg ha, if_neg (by simp [ha2])]
  have hdata : (ospJoin a b).data = a.data ++ '/' :: b.data := by
    rw [hj, String.data_append, String.data_append]
    simp [List.append_assoc]
  constructor
  · apply string_ne_empty_of_data
    rw [hdata]
    simp
  · unfold endsWithSlash
    rw [hdata]
    rw [List.getLast?_append_of_ne_nil _ (by simp)]
    rcases hbd' : b.data with - | ⟨c, cs⟩
    · exact absurd hbd' hbd
    · rw [List.getLast?_cons_cons]
      rcases hlast : (c :: cs).getLast? with - | c'
      · simp at hlast
      · have hc' : c' ∈ c :: cs := List.mem_of_getLast?_eq_some hlast
        have : c' ≠ '/' := by
          intro hcc
          subst hcc
          rw [← hbd'] at hc'
          exact hb2 hc'
        simpa using this

/-- Unpacking a good name. -/
theorem goodNameB_spec {s : String} (h : goodNameB s = true) :
    s ≠ "" ∧ '/' ∉ s.data := by
  simp only [goodNameB, Bool.and_eq_true, bne_iff_ne, ne_eq] at h
  rcases h with ⟨h1, h2⟩
  refine ⟨h1, fun hm => ?_⟩
  rw [Bool.not_eq_true'] at h2
  rw [← List.elem_iff] at hm
  rw [List.contains] at h2
  rw [h2] at hm
  cases hm

/-- The scan of one directory listing, as a map over a filter. -/
theorem DocAnalyzer.scanFiles_eq (root : String) (files : List String) :
    DocAnalyzer.scanFiles root files =
      (files.filter (fun f => DocAnalyzer.get_supported_file_extensions.contains
        (pyLower (DocAnalyzer.splitextExt f)))).map (ospJoin root) := by
  induction files with
  | nil => rfl
  | cons f rest ih =>
    simp only [DocAnalyzer.scanFiles, List.filterMap_cons, List.filter_cons]
    by_cases h : DocAnalyzer.get_supported_file_extensions.contains
        (pyLower (DocAnalyzer.splitextExt f)) = true
    · simp only [h, if_true, List.map_cons]
      rw [← ih]
      rfl
    · have h' : DocAnalyzer.get_supported_file_extensions.contains
          (pyLower (DocAnalyzer.splitextExt f)) = false := by
        cases hh : DocAnalyzer.get_supported_file_extensions.contains
            (pyLower (DocAnalyzer.splitextExt f)) with
        | true => exact absurd hh h
        | false => rfl
      simp only [h', Bool.false_eq_true, if_false]
      rw [← ih]
      rfl

/-- Members of a directory scan carry a one-segment fingerprint over the
root. -/
theorem DocAnalyzer.scanFiles_char (root : String) (files : List String)
    (hroot : root ≠ "") (hslash : endsWithSlash root = false)
    (hgood : files.all goodNameB = true) {p : String}
    (hp : p ∈ DocAnalyzer.scanFiles root files) :
    ∃ f ∈ files, p = ospJoin root f ∧
      splitSlash p.data = splitSlash root.data ++ [f.data] := by
  rw [DocAnalyzer.scanFiles_eq] at hp
  rcases List.mem_map.mp hp with ⟨f, hf, hpf⟩
  have hfm : f ∈ files := List.mem_of_mem_filter hf
  rcases goodNameB_spec (List.all_eq_true.mp hgood f hfm) with ⟨h1, h2⟩
  exact ⟨f, hfm, hpf.symm,
    by rw [← hpf]; exact splitSlash_ospJoin root f hroot hslash h2⟩

/-- A well-named directory listing scans to a duplicate-free path list. -/
theorem DocAnalyzer.scanFiles_nodup (root : String) (files : List String)
    (hroot : root ≠ "") (hslash : endsWithSlash root = false)
    (hgood : files.all goodNameB = true) (hnd : files.Nodup) :
    (DocAnalyzer.scanFiles root files).Nodup := by
  rw [DocAnalyzer.scanFiles_eq]
  apply List.Nodup.map_on
  · intro x hx y hy hxy
    rcases goodNameB_spec (List.all_eq_true.mp hgood x
      (List.mem_of_mem_filter hx)) with ⟨hx1, hx2⟩
    rcases goodNameB_spec (List.all_eq_true.mp hgood y
      (List.mem_of_mem_filter hy)) with ⟨hy1, hy2⟩
    have hsp := congrArg (fun s => splitSlash s.data) hxy
    simp only at hsp
    rw [splitSlash_ospJoin root x hroot hslash hx2,
      splitSlash_ospJoin root y hroot hslash hy2] at hsp
    have h2 := List.append_cancel_left hsp
    injection h2 with h3 h4
    exact string_ext h3
  · exact hnd.filter _

mutual
/-- Over a well-named tree, the pruned walk scans to a duplicate-free
path list, and every scanned path's fingerprint strictly extends the
root's. -/
theorem DocAnalyzer.scanWalk_nodup :
    ∀ (t : DocAnalyzer.Dir) (root : String),
      DocAnalyzer.Dir.wellNamed t = true → root ≠ "" →
      endsWithSlash root = false →
      ((DocAnalyzer.walkDir root t).flatMap
          (fun rf => DocAnalyzer.scanFiles rf.1 rf.2)).Nodup ∧
      (∀ p ∈ (DocAnalyzer.walkDir root t).flatMap
          (fun rf => DocAnalyzer.scanFiles rf.1 rf.2),
        ∃ s, s ≠ [] ∧ splitSlash p.data = splitSlash root.data ++ s)
  | .node subdirs files, root => by
    intro hw hroot hslash
    simp only [DocAnalyzer.Dir.wellNamed, Bool.and_eq_true,
      decide_eq_true_eq] at hw
    obtain ⟨⟨⟨⟨hfg, hfnd⟩, hsg⟩, hsnd⟩, hwl⟩ := hw
    have hrec := DocAnalyzer.scanWalkList_nodup subdirs root hsg hsnd hwl
      hroot hslash
    rw [show DocAnalyzer.walkDir root (.node subdirs files) =
      (root, files) :: DocAnalyzer.walkDirs root subdirs from rfl]
    rw [List.flatMap_cons]
    constructor
    · apply (DocAnalyzer.scanFiles_nodup root files hroot hslash hfg
        hfnd).append hrec.1
      intro p hp1 hp2
      rcases DocAnalyzer.scanFiles_char root files hroot hslash hfg hp1 with
        ⟨f, hf, hpf, hfp⟩
      rcases hrec.2 p hp2 with ⟨d, s, hd, hs, hps⟩
      rw [hfp] at hps
      have h2 := List.append_cancel_left hps
      injection h2 with h3 h4
      exact hs h4.symm
    · intro p hp
      rcases List.mem_append.mp hp with hp1 | hp2
      · rcases DocAnalyzer.scanFiles_char root files hroot hslash hfg hp1 with
          ⟨f, hf, hpf, hfp⟩
        exact ⟨[f.data], by simp, hfp⟩
      · rcases hrec.2 p hp2 with ⟨d, s, hd, hs, hps⟩
        exact ⟨d.data :: s, by simp, hps⟩

/-- List version of `scanWalk_nodup`, remembering which subdirectory each
scanned path came through. -/
theorem DocAnalyzer.scanWalkList_nodup :
    ∀ (l : List (String × DocAnalyzer.Dir)) (root : String),
      l.all (fun e => goodNameB e.1) = true →
      (l.map Prod.fst).Nodup →
      DocAnalyzer.Dir.wellNamedList l = true → root ≠ "" →
      endsWithSlash root = false →
      ((DocAnalyzer.walkDirs root l).flatMap
          (fun rf => DocAnalyzer.scanFiles rf.1 rf.2)).Nodup ∧
      (∀ p ∈ (DocAnalyzer.walkDirs root l).flatMap
          (fun rf => DocAnalyzer.scanFiles rf.1 rf.2),
        ∃ (d : String) (s : List (List Char)), d ∈ l.map Prod.fst ∧
          s ≠ [] ∧ splitSlash p.data = splitSlash root.data ++ d.data :: s)
  | [], root => by
    intro _ _ _ _ _
    simp [DocAnalyzer.walkDirs]
  | (d0, sub0) :: rest, root => by
    intro hall hnd hwl hroot hslash
    simp only [List.all_cons, Bool.and_eq_true] at hall
    rcases hall with ⟨hgd0, hgrest⟩
    simp only [List.map_cons] at hnd
    rcases List.nodup_cons.mp hnd with ⟨hd0mem, hndrest⟩
    simp only [DocAnalyzer.Dir.wellNamedList, Bool.and_eq_true] at hwl
    rcases hwl with ⟨hwsub0, hwrest⟩
    have hrecR := DocAnalyzer.scanWalkList_nodup rest root hgrest hndrest
      hwrest hroot hslash
    rw [show DocAnalyzer.walkDirs root ((d0, sub0) :: rest) =
      (if DocAnalyzer.excludedDirNames.contains d0 then []
       else DocAnalyzer.walkDir (ospJoin root d0) sub0) ++
      DocAnalyzer.walkDirs root rest from rfl]
    rw [List.flatMap_append]
    by_cases hex : DocAnalyzer.excludedDirNames.contains d0 = true
    · rw [if_pos hex]
      simp only [List.flatMap_nil, List.nil_append]
      refine ⟨hrecR.1, ?_⟩
      intro p hp
      rcases hrecR.2 p hp with ⟨d, s, hd, hs, hps⟩
      exact ⟨d, s, List.mem_cons_of_mem _ hd, hs, hps⟩
    · rw [if_neg hex]
      rcases goodNameB_spec hgd0 with ⟨hd01, hd02⟩
      rcases ospJoin_good root d0 hroot hslash hd01 hd02 with ⟨hjne, hjslash⟩
      have hrecD := DocAnalyzer.scanWalk_nodup sub0 (ospJoin root d0) hwsub0
        hjne hjslash
      have hfp : splitSlash (ospJoin root d0).data =
          splitSlash root.data ++ [d0.data] :=
        splitSlash_ospJoin root d0 hroot hslash hd02
      constructor
      · apply hrecD.1.append hrecR.1
        intro p hp1 hp2
        rcases hrecD.2 p hp1 with ⟨s1, hs1, hps1⟩
        rcases hrecR.2 p hp2 with ⟨d, s2, hd, hs2, hps2⟩
        rw [hfp, List.append_assoc] at hps1
        rw [hps1] at hps2
        have h2 := List.append_cancel_left hps2
        rcases s1 with - | ⟨seg, s1'⟩
        · exact hs1 rfl
        · injection h2 with h3 h4
          exact hd0mem (string_ext h3 ▸ hd)
      · intro p hp
        rcases List.mem_append.mp hp with hp1 | hp2
        · rcases hrecD.2 p hp1 with ⟨s1, hs1, hps1⟩
          rw [hfp, List.append_assoc] at hps1
          exact ⟨d0, s1, by simp, hs1, hps1⟩
        · rcases hrecR.2 p hp2 with ⟨d, s2, hd, hs2, hps2⟩
          exact ⟨d, s2, List.mem_cons_of_mem _ hd, hs2, hps2⟩
end

/-- Over a well-named tree, the scan result is duplicate-free. -/
theorem DocAnalyzer.scan_nodup (root : String) (t : DocAnalyzer.Dir)
    (hroot : root ≠ "") (hslash : endsWithSlash root = false)
    (hw : DocAnalyzer.Dir.wellNamed t = true) :
    (DocAnalyzer.scan_directory_for_files root (some t)).Nodup := by
  unfold DocAnalyzer.scan_directory_for_files
  rw [if_neg hroot]
  exact (DocAnalyzer.scanWalk_nodup t root hw hroot hslash).1

/-- C6 (counterexample): the scan returns paths joined with the scanned
root argument — for root `"d"` the result is `["d/a.py", "d/b.txt"]`,
never the bare relative list `["a.py", "b.txt"]` the claim states (no
root argument can produce it: `os.path.exists("")` is false). -/
theorem C6_counterexample :
    DocAnalyzer.scan_directory_for_files "d" (some Examples.exTree) =
      ["d/a.py", "d/b.txt"] ∧
    DocAnalyzer.scan_directory_for_files "d" (some Examples.exTree) ≠
      ["a.py", "b.txt"] :=
  ⟨rfl, by decide⟩

/-- C6 (amended): (i) for the scenario root `d` containing `a.py`,
`b.txt` and `.git/ignored.py`, the scan returns exactly
`[d/a.py, d/b.txt]` — the claimed files in traversal order, but joined
with the scanned root rather than bare; (ii) a path is scanned iff it is
the root-joined path of an allow-listed (lowercased-extension) file in a
directory reachable without entering any excluded tooling directory, at
any depth; (iii) over a well-named tree (per-directory entry names
non-empty, slash-free, distinct — true of a real filesystem), each such
file appears exactly once. -/
theorem C6_scan_characterization :
    DocAnalyzer.scan_directory_for_files "d" (some Examples.exTree) =
      ["d/a.py", "d/b.txt"] ∧
    (∀ (root : String) (t : DocAnalyzer.Dir) (p : String), root ≠ "" →
      (p ∈ DocAnalyzer.scan_directory_for_files root (some t) ↔
        ∃ (ds : List String) (sub : DocAnalyzer.Dir) (f : String),
          DocAnalyzer.DirPath t ds sub ∧ f ∈ sub.files ∧
          DocAnalyzer.pyLower (DocAnalyzer.splitextExt f) ∈
            DocAnalyzer.get_supported_file_extensions ∧
          p = ospJoin (ds.foldl ospJoin root) f)) ∧
    (∀ (root : String) (t : DocAnalyzer.Dir) (ds : List String)
        (sub : DocAnalyzer.Dir) (f : String),
      root ≠ "" → endsWithSlash root = false →
      DocAnalyzer.Dir.wellNamed t = true →
      DocAnalyzer.DirPath t ds sub → f ∈ sub.files →
      DocAnalyzer.pyLower (DocAnalyzer.splitextExt f) ∈
        DocAnalyzer.get_supported_file_extensions →
      (DocAnalyzer.scan_directory_for_files root (some t)).count
        (ospJoin (ds.foldl ospJoin root) f) = 1) := by
  refine ⟨rfl, fun root t p hroot => DocAnalyzer.mem_scan_iff root t p hroot, ?_⟩
  intro root t ds sub f hroot hslash hw hdp hf hext
  exact List.count_eq_one_of_mem
    (DocAnalyzer.scan_nodup root t hroot hslash hw)
    ((DocAnalyzer.mem_scan_iff root t _ hroot).mpr ⟨ds, sub, f, hdp, hf, hext, rfl⟩)

/-- Witness for C6 (amended): `a.py` at the scenario root is counted
exactly once. -/
theorem C6_witness :
    (DocAnalyzer.scan_directory_for_files "d" (some Examples.exTree)).count
      (ospJoin (List.foldl ospJoin "d" []) "a.py") = 1 :=
  C6_scan_characterization.2.2 "d" Examples.exTree [] Examples.exTree "a.py"
    (by decide) (by decide) (by decide) (.here _) (by decide) (by decide)

/-- C10: the extension allow-list test is case-insensitive — any file
whose lowercased extension is in the allow-list is included in the scan,
whatever the case of its actual name (e.g. `REPORT.PDF`). -/
theorem C10_scan_case_insensitive :
    ∀ (root : String) (t : DocAnalyzer.Dir) (ds : List String)
      (sub : DocAnalyzer.Dir) (f : String),
      root ≠ "" → DocAnalyzer.DirPath t ds sub → f ∈ sub.files →
      DocAnalyzer.pyLower (DocAnalyzer.splitextExt f) ∈
        DocAnalyzer.get_supported_file_extensions →
      ospJoin (ds.foldl ospJoin root) f ∈
        DocAnalyzer.scan_directory_for_files root (some t) := by
  intro root t ds sub f hroot hdp hf hext
  exact (DocAnalyzer.mem_scan_iff root t _ hroot).mpr
    ⟨ds, sub, f, hdp, hf, hext, rfl⟩

/-- Witness for C10: `REPORT.PDF` (uppercase extension) is scanned. -/
theorem C10_witness :
    ospJoin (List.foldl ospJoin "d" []) "REPORT.PDF" ∈
      DocAnalyzer.scan_directory_for_files "d"
        (some (.node [] ["REPORT.PDF"])) :=
  C10_scan_case_insensitive "d" (.node [] ["REPORT.PDF"]) []
    (.node [] ["REPORT.PDF"]) "REPORT.PDF"
    (by decide) (.here _) (by decide) (by decide)
